import Mathlib

/-!
Verification of the Image-Service request pipeline (Go) via a shallow
embedding in Lean 4.

Modelling conventions:
* Go strings and byte payloads are modelled as `List Char` (the service only
  inspects them bytewise / ASCII-wise).
* Go `int`/`int64` values are modelled as `Int`, sizes as `Nat`.
* Go `float64` values are modelled as `ℚ`; the `%.2f` formatting of
  `fmt.Sprintf` is modelled as rounding the magnitude to two decimals
  (half-up; ties-to-even of binary floats differs only on exact decimal
  ties, which no theorem below depends on).
* External collaborators (net/url parsing, the HTTP client, the Redis
  store, the libvips engine, the MD5 digest) are passed in as explicit
  function/value parameters, exactly at the points where the Go code calls
  out to them.
-/

/-- Shorthand turning a string literal into the `List Char` model used
throughout. -/
def cs (s : String) : List Char := s.toList

namespace Middleware

/-- The allow-list predicate of `internal/middleware/auth.go` lines 37-49:
iterate over `allowedDomains`; `"*"` allows everything; a non-empty entry
allows the host when `strings.HasSuffix(host, domain)` holds or the host
equals the entry.  The Go loop breaks at the first match, which is
observationally `List.any`. -/
def authAllowed (allowedDomains : List (List Char)) (host : List Char) : Bool :=
  allowedDomains.any (fun domain =>
    domain == cs "*" ||
      (!(domain == []) && (List.isSuffixOf domain host || host == domain)))

/-- Host metadata produced by the external `net/url.Parse`; the middleware
only ever reads `.host`. -/
structure URLInfo where
  host : List Char
deriving DecidableEq

/-- The host-resolution order of `internal/middleware/auth.go` lines 18-34:
first `url.QueryUnescape` the raw parameter (falling back to the raw string
when unescaping fails), then `url.Parse` the decoded string; only if that
parse fails is the raw string parsed.  `parse` and `unescape` model the
external `net/url` functions. -/
def authResolve (parse : List Char → Option URLInfo)
    (unescape : List Char → Option (List Char)) (raw : List Char) :
    Option URLInfo :=
  let decodedURL := match unescape raw with
    | some d => d
    | none => raw
  match parse decodedURL with
  | some u => some u
  | none => parse raw

/-- Modelled from the spec (for comparison with `authResolve`): the claim's
resolution order — "first attempting a direct parse of the raw url
parameter; only if that direct parse fails does it URL-decode the string
and reparse, falling back to the original string when decoding fails". -/
def specResolve (parse : List Char → Option URLInfo)
    (unescape : List Char → Option (List Char)) (raw : List Char) :
    Option URLInfo :=
  match parse raw with
  | some u => some u
  | none =>
      let decodedURL := match unescape raw with
        | some d => d
        | none => raw
      parse decodedURL

/-- Outcome of the Auth middleware of `internal/middleware/auth.go`. -/
inductive AuthResult
  | missingURL
  | invalidURL
  | forbidden
  | pass (resolvedHost : List Char)
deriving DecidableEq

/-- The full Auth middleware decision (`internal/middleware/auth.go`
lines 12-56): empty `url` parameter → 400 missing; unresolvable → 400
invalid; host not allowed → 403; otherwise the wrapped handler runs. -/
def Auth (allowedDomains : List (List Char))
    (parse : List Char → Option URLInfo)
    (unescape : List Char → Option (List Char)) (imageURL : List Char) :
    AuthResult :=
  if imageURL == [] then .missingURL
  else
    match authResolve parse unescape imageURL with
    | none => .invalidURL
    | some u =>
        if authAllowed allowedDomains u.host then .pass u.host
        else .forbidden

end Middleware

/-! ## Formatting primitives modelling the `fmt.Sprintf` verbs used by
`generateCacheKey` (`%s`, `%d`, `%.2f`, `%t`). -/

/-- The character for a decimal digit value. -/
def digitChar (d : Nat) : Char := Char.ofNat (48 + d)

/-- The digit value of a character. -/
def charVal (c : Char) : Nat := c.toNat - 48

/-- Is the character an ASCII decimal digit? -/
def isDigitCh (c : Char) : Bool := 48 ≤ c.toNat && c.toNat ≤ 57

/-- Decimal digits of `n`, least significant first, empty for `0`; `fuel`
bounds the recursion and is adequate whenever `n ≤ fuel`. -/
def natDigitsRev : Nat → Nat → List Nat
  | 0, _ => []
  | fuel + 1, n => if n = 0 then [] else n % 10 :: natDigitsRev fuel (n / 10)

/-- Decimal notation of a natural number, most significant digit first,
as produced by the `%d` verb. -/
def natDigits (n : Nat) : List Char :=
  if n = 0 then [digitChar 0] else ((natDigitsRev n n).map digitChar).reverse

/-- The `%d` verb on a (signed) Go integer. -/
def fmtInt (i : Int) : List Char :=
  if i < 0 then '-' :: natDigits i.natAbs else natDigits i.natAbs

/-- Fixed two-decimal rendering of a scaled magnitude `m` (in hundredths):
integer part, `'.'`, then exactly two digits. -/
def f2digits (m : Nat) : List Char :=
  natDigits (m / 100) ++ '.' :: [digitChar (m % 100 / 10), digitChar (m % 100 % 10)]

/-- The `%.2f` verb on a Go float, modelled on rationals: a sign taken from
the value, then the magnitude rounded to hundredths. -/
def fmtF2 (q : ℚ) : List Char :=
  (if q < 0 then ['-'] else []) ++ f2digits (round (|q| * 100)).toNat

/-- The `%t` verb. -/
def fmtBool (b : Bool) : List Char := if b then cs "true" else cs "false"

/-- Join non-separator-bearing fields with the `':'` separators of the
`generateCacheKey` format string. -/
def sepJoin : List (List Char) → List Char
  | [] => []
  | [x] => x
  | x :: y :: xs => x ++ ':' :: sepJoin (y :: xs)

namespace Handler

/-- The eighteen values the handler computes from the query string and
threads to `generateCacheKey` and `processor.TransformOptions`
(`internal/handler/transform.go` lines 36-70). -/
structure ReqParams where
  url : List Char
  w : Int
  h : Int
  fit : List Char
  format : List Char
  quality : Int
  crop : List Char
  blur : Int
  sharpen : ℚ
  brightness : ℚ
  contrast : ℚ
  saturation : ℚ
  autoOptim : Bool
  grayscale : Bool
  flip : List Char
  rotate : Int
  background : List Char
  strip : Bool
deriving DecidableEq

/-- The eighteen formatted fields of the
`"%s:%d:%d:%s:%s:%d:%s:%d:%.2f:%.2f:%.2f:%.2f:%t:%t:%s:%d:%s:%t"` template
of `generateCacheKey` (`internal/handler/transform.go` lines 157-161), in
the exact argument order of the source. -/
def serializeFields (p : ReqParams) : List (List Char) :=
  [p.url, fmtInt p.w, fmtInt p.h, p.fit, p.format, fmtInt p.quality,
   p.crop, fmtInt p.blur, fmtF2 p.sharpen, fmtF2 p.brightness,
   fmtF2 p.contrast, fmtF2 p.saturation, fmtBool p.autoOptim,
   fmtBool p.grayscale, p.flip, fmtInt p.rotate, p.background,
   fmtBool p.strip]

/-- The canonical pre-hash serialization produced by `fmt.Sprintf` in
`generateCacheKey`. -/
def serializeRequest (p : ReqParams) : List Char := sepJoin (serializeFields p)

/-- `generateCacheKey` (`internal/handler/transform.go` lines 157-164):
the serialized string passed through the external MD5 hex digest, which is
supplied as the function parameter `md5hex`. -/
def generateCacheKey (md5hex : List Char → List Char) (p : ReqParams) :
    List Char :=
  md5hex (serializeRequest p)

/-! ### Query-string numeric parsing (`strconv.Atoi`, `strconv.ParseFloat`)

The handler discards the error results, so only the returned values are
modelled.  `strconv.Atoi` returns the parsed value, clamped to the
`int64` range on overflow, and `0` on a syntax error.  `strconv.ParseFloat`
returns the parsed value and `0` on a syntax error (the `inf`/`nan`/hex
spellings and binary rounding of `float64` are outside the rational
model). -/

/-- Value of a digit string, most significant digit first. -/
def digitsToNat (l : List Char) : Nat :=
  l.foldl (fun acc c => 10 * acc + charVal c) 0

/-- Decimal integer syntax of `strconv.ParseInt(s, 10, 64)`: an optional
sign followed by at least one digit, nothing else. -/
def parseIntGo : List Char → Option Int
  | [] => none
  | '+' :: r => if !r.isEmpty && r.all isDigitCh then some (digitsToNat r) else none
  | '-' :: r => if !r.isEmpty && r.all isDigitCh then some (-(digitsToNat r : Int)) else none
  | s => if s.all isDigitCh then some (digitsToNat s) else none

/-- Clamp to the `int64` range, as `strconv.Atoi` does on range errors. -/
def clampInt64 (i : Int) : Int :=
  if i < -(2 ^ 63) then -(2 ^ 63)
  else if i > 2 ^ 63 - 1 then 2 ^ 63 - 1
  else i

/-- The value the handler obtains from `strconv.Atoi` with the error
ignored. -/
def atoi (s : List Char) : Int :=
  match parseIntGo s with
  | some v => clampInt64 v
  | none => 0

/-- Sign prefix of a number literal. -/
def splitSign : List Char → Bool × List Char
  | '+' :: r => (false, r)
  | '-' :: r => (true, r)
  | s => (false, s)

/-- Exponent part of a float literal: optional sign, at least one digit. -/
def parseExp (s : List Char) : Option Int :=
  match s with
  | '+' :: r => if !r.isEmpty && r.all isDigitCh then some (digitsToNat r) else none
  | '-' :: r => if !r.isEmpty && r.all isDigitCh then some (-(digitsToNat r : Int)) else none
  | _ => if !s.isEmpty && s.all isDigitCh then some (digitsToNat s) else none

/-- Decimal float syntax of `strconv.ParseFloat(s, 64)` over rationals:
optional sign, a mantissa holding at least one digit with an optional
decimal point, and an optional decimal exponent. -/
def parseFloatGo (s : List Char) : Option ℚ :=
  match s with
  | [] => none
  | _ =>
    let sp := splitSign s
    let intPart := sp.2.takeWhile isDigitCh
    let rest1 := sp.2.dropWhile isDigitCh
    let fracRest : List Char × List Char :=
      match rest1 with
      | '.' :: r => (r.takeWhile isDigitCh, r.dropWhile isDigitCh)
      | _ => ([], rest1)
    if intPart.isEmpty && fracRest.1.isEmpty then
      none
    else
      let mant : ℚ :=
        (digitsToNat intPart : ℚ) + (digitsToNat fracRest.1 : ℚ) / (10 ^ fracRest.1.length)
      let signedMant := if sp.1 then -mant else mant
      match fracRest.2 with
      | [] => some signedMant
      | 'e' :: r => (parseExp r).map (fun e => signedMant * 10 ^ e)
      | 'E' :: r => (parseExp r).map (fun e => signedMant * 10 ^ e)
      | _ => none

/-- The value the handler obtains from `strconv.ParseFloat` with the error
ignored. -/
def parseFloatVal (s : List Char) : ℚ := (parseFloatGo s).getD 0

/-- Query-parameter extraction and defaulting of
`internal/handler/transform.go` lines 35-70 (textually identical in the
`part_002` snapshot, lines 37-72).  `query` models `r.URL.Query().Get`,
which returns the empty string for an absent parameter. -/
def parseParams (query : List Char → List Char) : ReqParams :=
  let url := query (cs "url")
  let width := atoi (query (cs "w"))
  let height := atoi (query (cs "h"))
  let fit0 := query (cs "fit")
  let fit := if fit0 == [] then cs "cover" else fit0
  let format0 := query (cs "f")
  let format := if format0 == [] then cs "jpeg" else format0
  let q0 := atoi (query (cs "q"))
  let quality := if q0 ≤ 0 ∨ q0 > 100 then 80 else q0
  let crop := query (cs "crop")
  let blur := atoi (query (cs "blur"))
  let sharpen := parseFloatVal (query (cs "sharpen"))
  let brightness := parseFloatVal (query (cs "brightness"))
  let contrast0 := parseFloatVal (query (cs "contrast"))
  let contrast := if contrast0 = 0 then 1 else contrast0
  let saturation0 := parseFloatVal (query (cs "saturation"))
  let saturation := if saturation0 = 0 then 1 else saturation0
  let autoOptim := query (cs "auto") == cs "true" || query (cs "auto") == cs "1"
  let grayscale := query (cs "grayscale") == cs "true" || query (cs "bw") == cs "true"
  let flip := query (cs "flip")
  let rotate := atoi (query (cs "rotate"))
  let background := query (cs "bg")
  let strip := !(query (cs "strip") == cs "false")
  { url := url, w := width, h := height, fit := fit, format := format,
    quality := quality, crop := crop, blur := blur, sharpen := sharpen,
    brightness := brightness, contrast := contrast, saturation := saturation,
    autoOptim := autoOptim, grayscale := grayscale, flip := flip,
    rotate := rotate, background := background, strip := strip }

/-- `getContentType` of `internal/handler/transform.go` lines 166-177. -/
def getContentType (format : List Char) : List Char :=
  if format == cs "webp" then cs "image/webp"
  else if format == cs "avif" then cs "image/avif"
  else if format == cs "png" then cs "image/png"
  else cs "image/jpeg"

/-- `getContentType` of the `part_002` snapshot (lines 244-257), which adds
an `svg` case. -/
def getContentTypeV2 (format : List Char) : List Char :=
  if format == cs "webp" then cs "image/webp"
  else if format == cs "avif" then cs "image/avif"
  else if format == cs "png" then cs "image/png"
  else if format == cs "svg" then cs "image/svg+xml"
  else cs "image/jpeg"

/-- Substring containment of `strings.Contains` over the char-list
model. -/
def containsSub (pat : List Char) : List Char → Bool
  | [] => pat.isEmpty
  | c :: rest => pat.isPrefixOf (c :: rest) || containsSub pat rest

/-- ASCII lower-casing of `strings.ToLower` as applied to the sniffed
payload bytes. -/
def asciiLower (c : Char) : Char :=
  if 65 ≤ c.toNat && c.toNat ≤ 90 then Char.ofNat (c.toNat + 32) else c

/-- `isSVG` of the `part_002` snapshot (lines 216-233): payloads shorter
than 5 bytes are never SVG; otherwise the first `min 500 (length)` bytes
are lower-cased and searched for the three substring markers. -/
def isSVG (data : List Char) : Bool :=
  if data.length < 5 then false
  else
    let checkLength := if data.length < 500 then data.length else 500
    let pfx := (data.take checkLength).map asciiLower
    containsSub (cs "<svg") pfx || containsSub (cs "<!doctype svg") pfx ||
      (containsSub (cs "<?xml") pfx && containsSub (cs "svg") pfx)

/-- Modelled from the spec: the vector classification as the claim states
it — at most the first 500 bytes (or the whole payload if shorter),
lower-cased, searched for an opening vector tag, a vector doctype, or an
XML prologue co-occurring with a vector tag in that prefix.  Kept separate
from `isSVG` for comparison. -/
def specVectorClass (data : List Char) : Bool :=
  let pfx := (data.take 500).map asciiLower
  containsSub (cs "<svg") pfx || containsSub (cs "<!doctype svg") pfx ||
    (containsSub (cs "<?xml") pfx && containsSub (cs "<svg") pfx)

/-- An upstream response as seen by the external HTTP client: status code,
the declared `Content-Length` header (which the handler never consults),
and the body byte stream. -/
structure UpstreamResp where
  status : Int
  declaredLen : Option Int
  body : List Char
deriving DecidableEq

/-- Outcome of the outbound GET performed by the external HTTP client. -/
inductive FetchOutcome
  | netErr
  | resp (r : UpstreamResp)
deriving DecidableEq

/-- Error cases of `downloadImage`. -/
inductive DownloadErr
  | network
  | badStatus (status : Int)
  | badURL
deriving DecidableEq

/-- `downloadImage` of `internal/handler/transform.go` lines 133-155:
a client error propagates; a non-200 status is an error; otherwise the
body is read through `io.LimitReader(resp.Body, maxImageSize+1)`, i.e. at
most `maxImageSize + 1` bytes are consumed. -/
def downloadImage (maxImageSize : Nat) (fetch : FetchOutcome) :
    Except DownloadErr (List Char) :=
  match fetch with
  | .netErr => .error .network
  | .resp r =>
      if r.status ≠ 200 then .error (.badStatus r.status)
      else .ok (r.body.take (maxImageSize + 1))

/-- `downloadImage` of the `part_002` snapshot (lines 158-214): the URL is
first handed to `url.Parse` to derive the Referer/Origin headers, so a
parse failure aborts the download; the status check and the
`maxImageSize + 1` body cap are as in the other snapshot. -/
def downloadImageV2 (parse : List Char → Option Middleware.URLInfo)
    (maxImageSize : Nat) (url : List Char) (fetch : FetchOutcome) :
    Except DownloadErr (List Char) :=
  match parse url with
  | none => .error .badURL
  | some _ => downloadImage maxImageSize fetch

end Handler

namespace Processor

/-- `TransformOptions` of `internal/processor/image.go` lines 9-27. -/
structure TransformOptions where
  Width : Int
  Height : Int
  Fit : List Char
  Format : List Char
  Quality : Int
  Crop : List Char
  Blur : Int
  Sharpen : ℚ
  Brightness : ℚ
  Contrast : ℚ
  Saturation : ℚ
  AutoOptim : Bool
  Grayscale : Bool
  Flip : List Char
  Rotate : Int
  Background : List Char
  Strip : Bool
deriving DecidableEq

/-- `vips.Angle` values used by the rotation stage. -/
inductive Angle
  | a0
  | a90
  | a180
  | a270
deriving DecidableEq

/-- `vips.Direction` values used by the flip stage. -/
inductive Direction
  | horizontal
  | vertical
deriving DecidableEq

/-- `vips.Interesting` values used by the resize stage. -/
inductive Interesting
  | noInterest
  | centre
  | attention
deriving DecidableEq

/-- Colour spaces named by the pipeline: `vips.InterpretationBW`,
`vips.InterpretationLAB`, and the image's own space recorded before the
saturation stage. -/
inductive ColorSpace
  | bw
  | lab
  | original
deriving DecidableEq

/-- One call against the opaque libvips engine, as issued by
`Processor.Transform` (`internal/processor/image.go` lines 41-245). -/
inductive ImageOp
  | autoRotate
  | rotate (angle : Angle)
  | flip (d : Direction)
  | thumbnail (width height : Int) (interest : Interesting)
  | extractArea (x y w h : Int)
  | sharpen (sigma x1 m2 : ℚ)
  | gaussianBlur (sigma : ℚ)
  | toColorSpace (c : ColorSpace)
  | linear (multipliers offsets : List ℚ)
  | exportImage (format : List Char) (quality : Int) (stripMetadata : Bool)
deriving DecidableEq

/-- The `switch opts.Rotate` of lines 56-64: unknown positive values fall
through with `vips.Angle0`. -/
def angleOf (rotate : Int) : Angle :=
  if rotate = 90 then .a90
  else if rotate = 180 then .a180
  else if rotate = 270 then .a270
  else .a0

/-- The `switch opts.Flip` of lines 72-88: no default case, so an unknown
non-empty value performs no flip. -/
def flipCalls (flip : List Char) : List ImageOp :=
  if flip == cs "h" then [.flip .horizontal]
  else if flip == cs "v" then [.flip .vertical]
  else if flip == cs "both" then [.flip .horizontal, .flip .vertical]
  else []

/-- The `interest` selection of lines 93-98. -/
def interestOf (fit : List Char) : Interesting :=
  if fit == cs "cover" then .centre
  else if fit == cs "attention" then .attention
  else .noInterest

/-- A `%d` item of `fmt.Sscanf`: optional leading spaces, optional sign,
then a maximal non-empty digit run; returns the value and the rest. -/
def scanInt (s : List Char) : Option (Int × List Char) :=
  let s1 := s.dropWhile (fun c => c == ' ')
  let signRest : Bool × List Char :=
    match s1 with
    | '-' :: r => (true, r)
    | '+' :: r => (false, r)
    | _ => (false, s1)
  let ds := signRest.2.takeWhile isDigitCh
  if ds.isEmpty then none
  else
    some (if signRest.1 then -(Handler.digitsToNat ds : Int) else (Handler.digitsToNat ds : Int),
      signRest.2.dropWhile isDigitCh)

/-- A literal `','` of the `fmt.Sscanf` format string. -/
def expectComma : List Char → Option (List Char)
  | ',' :: r => some r
  | _ => none

/-- `fmt.Sscanf(opts.Crop, "%d,%d,%d,%d", ...)` of line 108: four signed
integers separated by literal commas; input beyond the last item is not
required to be empty. -/
def parseCrop (s : List Char) : Option (Int × Int × Int × Int) := do
  let p1 ← scanInt s
  let r1 ← expectComma p1.2
  let p2 ← scanInt r1
  let r2 ← expectComma p2.2
  let p3 ← scanInt r2
  let r3 ← expectComma p3.2
  let p4 ← scanInt r3
  pure (p1.1, p2.1, p3.1, p4.1)

/-- The crop block of lines 106-113: the `ExtractArea` call when
`fmt.Sscanf` succeeds, nothing otherwise. -/
def cropCalls (crop : List Char) : List ImageOp :=
  match parseCrop crop with
  | some c => [ImageOp.extractArea c.1 c.2.1 c.2.2.1 c.2.2.2]
  | none => []

/-- The export format normalization of the `switch opts.Format` at lines
205-238: `webp`, `avif`, `png` keep their parameters; `jpg` and every
other value fall through to the JPEG exporter. -/
def exportFormat (format : List Char) : List Char :=
  if format == cs "webp" then cs "webp"
  else if format == cs "avif" then cs "avif"
  else if format == cs "png" then cs "png"
  else cs "jpeg"

/-- The final encode call of lines 191-238: quality re-defaulted to 80
when non-positive, metadata stripped unless `Strip` is false. -/
def exportCall (opts : TransformOptions) : ImageOp :=
  .exportImage (exportFormat opts.Format)
    (if opts.Quality ≤ 0 then 80 else opts.Quality) opts.Strip

/-- The ordered sequence of engine calls issued by `Processor.Transform`
(`internal/processor/image.go` lines 41-245) when every call succeeds:
each conditional block of the source contributes its calls in source
order. -/
def transformOps (opts : TransformOptions) : List ImageOp :=
  [ImageOp.autoRotate]
    ++ (if opts.Rotate > 0 then [ImageOp.rotate (angleOf opts.Rotate)] else [])
    ++ (if opts.Flip == [] then [] else flipCalls opts.Flip)
    ++ (if opts.Width > 0 ∨ opts.Height > 0 then
          [ImageOp.thumbnail opts.Width opts.Height (interestOf opts.Fit)]
        else [])
    ++ (if opts.Crop == [] then [] else cropCalls opts.Crop)
    ++ (if opts.AutoOptim then [ImageOp.sharpen 1 1 (12 / 10)] else [])
    ++ (if opts.Sharpen > 0 then [ImageOp.sharpen 1 1 opts.Sharpen] else [])
    ++ (if opts.Blur > 0 then [ImageOp.gaussianBlur (opts.Blur : ℚ)] else [])
    ++ (if opts.Grayscale then [ImageOp.toColorSpace .bw] else [])
    ++ (if opts.Brightness ≠ 0 then
          [ImageOp.linear [1 + opts.Brightness / 100] [0]]
        else [])
    ++ (if opts.Contrast ≠ 0 ∧ opts.Contrast ≠ 1 then
          [ImageOp.linear [opts.Contrast] [128 * (1 - opts.Contrast)]]
        else [])
    ++ (if opts.Saturation ≠ 0 ∧ opts.Saturation ≠ 1 then
          [ImageOp.toColorSpace .lab,
           ImageOp.linear [1, opts.Saturation, opts.Saturation] [0, 0, 0],
           ImageOp.toColorSpace .original]
        else [])
    ++ [exportCall opts]

/-- The spec's stage number of an engine call (§4.7 of the spec, stages
1-13).  The two sharpen stages (auto-optimize and manual) issue the same
engine call and share number 6; the three saturation calls share 12; a
one-channel `linear` with zero offset is the brightness stage, with
non-zero offset the contrast stage. -/
def stageIndex : ImageOp → Nat
  | .autoRotate => 1
  | .rotate _ => 2
  | .flip _ => 3
  | .thumbnail _ _ _ => 4
  | .extractArea _ _ _ _ => 5
  | .sharpen _ _ _ => 6
  | .gaussianBlur _ => 8
  | .toColorSpace c => match c with | .bw => 9 | _ => 12
  | .linear ms os => if ms.length = 3 then 12 else if os == [0] then 10 else 11
  | .exportImage _ _ _ => 13

end Processor

namespace Handler

/-- The `processor.TransformOptions` literal built by the handler
(`internal/handler/transform.go` lines 96-114). -/
def optsOf (p : ReqParams) : Processor.TransformOptions :=
  { Width := p.w, Height := p.h, Fit := p.fit, Format := p.format,
    Quality := p.quality, Crop := p.crop, Blur := p.blur,
    Sharpen := p.sharpen, Brightness := p.brightness,
    Contrast := p.contrast, Saturation := p.saturation,
    AutoOptim := p.autoOptim, Grayscale := p.grayscale, Flip := p.flip,
    Rotate := p.rotate, Background := p.background, Strip := p.strip }

/-- Body written to the client: image bytes or an `http.Error` text (the
formatted detail of the wrapped error message is not modelled). -/
inductive RespBody
  | imageBytes (b : List Char)
  | errorText (t : List Char)
deriving DecidableEq

/-- The user-visible response: status, the three headers the handler sets,
and the body. -/
structure Response where
  status : Int
  contentType : Option (List Char)
  xcache : Option (List Char)
  cacheControl : Option (List Char)
  body : RespBody
deriving DecidableEq

/-- Outcome of `cache.Get`: redis distinguishes a hit, the `redis.Nil`
miss error, and any other (store-failure) error; the handler only tests
`err == nil`. -/
inductive CacheGetOutcome
  | hit (data : List Char)
  | missNil
  | storeFailure
deriving DecidableEq

/-- Outcome the detached `cache.Set` goroutine would observe; its error is
discarded inside the goroutine and reaches no other code. -/
inductive CacheSetOutcome
  | ok
  | storeFailure
deriving DecidableEq

/-- What a run of the handler produced: the response, the detached cache
write it spawned (key and payload), and the URL handed to `downloadImage`
when the download path was reached. -/
structure PipelineOut where
  response : Response
  cacheWrite : Option (List Char × List Char)
  fetched : Option (List Char)
deriving DecidableEq

/-- The long-lived cache header of the success paths. -/
def ccHeader : List Char := cs "public, max-age=31536000"

/-- The `http.Error` responses of the handler: plain status and text,
none of the image headers. -/
def errorResponse (status : Int) (msg : List Char) : Response :=
  { status := status, contentType := none, xcache := none,
    cacheControl := none, body := .errorText msg }

/-- The success responses of the handler: 200 with the resolved content
type, the `X-Cache` mark, the long-lived `Cache-Control` header, and the
payload bytes. -/
def imageResponse (contentType cacheMark payload : List Char) : Response :=
  { status := 200, contentType := some contentType, xcache := some cacheMark,
    cacheControl := some ccHeader, body := .imageBytes payload }

/-- `Handler.Transform` of `internal/handler/transform.go` lines 32-131.
External collaborators are parameters: `md5hex` (crypto/md5), `cacheGet`
(the Redis read for this request's key), `fetch` (the HTTP client),
`transform` (the processor), and `setOutcome` (the result the detached
`cache.Set` goroutine observes — discarded by the code, lines 122-125). -/
def Transform (md5hex : List Char → List Char) (maxImageSize : Nat)
    (query : List Char → List Char) (cacheGet : CacheGetOutcome)
    (fetch : FetchOutcome)
    (transform : List Char → Processor.TransformOptions → Except Unit (List Char))
    (setOutcome : CacheSetOutcome) : PipelineOut :=
  let p := parseParams query
  let cacheKey := generateCacheKey md5hex p
  match cacheGet with
  | .hit cached =>
      { response := imageResponse (getContentType p.format) (cs "HIT") cached,
        cacheWrite := none, fetched := none }
  | _ =>
      match downloadImage maxImageSize fetch with
      | .error _ =>
          { response := errorResponse 502 (cs "Failed to download image"),
            cacheWrite := none, fetched := some p.url }
      | .ok imageData =>
          if (imageData.length : Int) > (maxImageSize : Int) then
            { response := errorResponse 413 (cs "Image too large"),
              cacheWrite := none, fetched := some p.url }
          else
            match transform imageData (optsOf p) with
            | .error _ =>
                { response := errorResponse 500 (cs "Failed to transform image"),
                  cacheWrite := none, fetched := some p.url }
            | .ok transformed =>
                { response := imageResponse (getContentType p.format) (cs "MISS") transformed,
                  cacheWrite := some (cacheKey, transformed),
                  fetched := some p.url }

/-- `Handler.Transform` of the `part_002` snapshot (lines 34-156), which
additionally sniffs SVG content: a hit whose bytes sniff as SVG is served
with the SVG content type, and a downloaded SVG payload bypasses the
processor and is cached and served unchanged. -/
def TransformV2 (md5hex : List Char → List Char)
    (parse : List Char → Option Middleware.URLInfo) (maxImageSize : Nat)
    (query : List Char → List Char) (cacheGet : CacheGetOutcome)
    (fetch : FetchOutcome)
    (transform : List Char → Processor.TransformOptions → Except Unit (List Char))
    (setOutcome : CacheSetOutcome) : PipelineOut :=
  let p := parseParams query
  let cacheKey := generateCacheKey md5hex p
  match cacheGet with
  | .hit cached =>
      { response := imageResponse
          (if isSVG cached then cs "image/svg+xml" else getContentTypeV2 p.format)
          (cs "HIT") cached,
        cacheWrite := none, fetched := none }
  | _ =>
      match downloadImageV2 parse maxImageSize p.url fetch with
      | .error _ =>
          { response := errorResponse 502 (cs "Failed to download image"),
            cacheWrite := none, fetched := some p.url }
      | .ok imageData =>
          if (imageData.length : Int) > (maxImageSize : Int) then
            { response := errorResponse 413 (cs "Image too large"),
              cacheWrite := none, fetched := some p.url }
          else if isSVG imageData then
            { response := imageResponse (cs "image/svg+xml") (cs "MISS") imageData,
              cacheWrite := some (cacheKey, imageData),
              fetched := some p.url }
          else
            match transform imageData (optsOf p) with
            | .error _ =>
                { response := errorResponse 500 (cs "Failed to transform image"),
                  cacheWrite := none, fetched := some p.url }
            | .ok transformed =>
                { response := imageResponse (getContentTypeV2 p.format) (cs "MISS") transformed,
                  cacheWrite := some (cacheKey, transformed),
                  fetched := some p.url }

end Handler

namespace Middleware

/-- Modelled from the spec: the RateLimiter implementation
(`middleware.NewRateLimiter` / `.Limit`) is not under `src/` — only its
caller in `cmd/server/main.go` lines 47-56 is.  Per §4.2 / §3 of the spec,
a bucket holds a token count and a last-refill timestamp. -/
structure Bucket where
  tokens : ℚ
  lastRefill : ℚ
deriving DecidableEq

/-- Modelled from the spec: refill tokens proportionally to elapsed time
since the last refill, capped at capacity. -/
def refillBucket (capacity rate now : ℚ) (b : Bucket) : Bucket :=
  { tokens := min capacity (b.tokens + (now - b.lastRefill) * rate),
    lastRefill := now }

/-- Modelled from the spec: one `Check` — refill, then consume one token
if available, else deny immediately. -/
def checkBucket (capacity rate now : ℚ) (b : Bucket) : Bool × Bucket :=
  let b1 := refillBucket capacity rate now b
  if 1 ≤ b1.tokens then (true, { tokens := b1.tokens - 1, lastRefill := now })
  else (false, b1)

/-- Modelled from the spec: `n` consecutive `Check` calls at one instant
against one bucket, collecting the decisions. -/
def consumeRun (capacity rate now : ℚ) : Nat → Bucket → List Bool × Bucket
  | 0, b => ([], b)
  | n + 1, b =>
      let r := checkBucket capacity rate now b
      let rest := consumeRun capacity rate now n r.2
      (r.1 :: rest.1, rest.2)

/-- Modelled from the spec: the per-client bucket table — a bucket is
created lazily (full) on a client's first request, and a check for one
client rewrites only that client's entry. -/
def rateLimiterCheck (capacity rate : ℚ) (table : List Char → Option Bucket)
    (key : List Char) (now : ℚ) :
    Bool × (List Char → Option Bucket) :=
  let b := (table key).getD { tokens := capacity, lastRefill := now }
  let r := checkBucket capacity rate now b
  (r.1, fun k => if k == key then some r.2 else table k)

end Middleware

/-! ## Verification helper definitions -/

/-- Value of a least-significant-first digit list. -/
def natNum : List Nat → Nat
  | [] => 0
  | d :: ds => d + 10 * natNum ds

/-- Parse back the decimal notation produced by `natDigits`. -/
def parseNatChars (l : List Char) : Nat := natNum ((l.map charVal).reverse)

/-- The string-typed fields of a request contain no `':'`, the separator
of the cache-key template. -/
def sepFreeFields (p : Handler.ReqParams) : Prop :=
  ':' ∉ p.url ∧ ':' ∉ p.fit ∧ ':' ∉ p.format ∧ ':' ∉ p.crop ∧
    ':' ∉ p.flip ∧ ':' ∉ p.background

/-- The float fields of a request are exact multiples of `1/100`, i.e.
carry no precision beyond the `%.2f` rounding of the template. -/
def centesimalFloats (p : Handler.ReqParams) : Prop :=
  (∃ z : ℤ, p.sharpen = z / 100) ∧ (∃ z : ℤ, p.brightness = z / 100) ∧
    (∃ z : ℤ, p.contrast = z / 100) ∧ (∃ z : ℤ, p.saturation = z / 100)

/-- The thirteen conditional blocks of `Processor.Transform`, in source
order; `Processor.transformOps` is their concatenation. -/
def stageSegs (opts : Processor.TransformOptions) : List (List Processor.ImageOp) :=
  [[Processor.ImageOp.autoRotate],
   (if opts.Rotate > 0 then [Processor.ImageOp.rotate (Processor.angleOf opts.Rotate)] else []),
   (if opts.Flip == [] then [] else Processor.flipCalls opts.Flip),
   (if opts.Width > 0 ∨ opts.Height > 0 then
      [Processor.ImageOp.thumbnail opts.Width opts.Height (Processor.interestOf opts.Fit)]
    else []),
   (if opts.Crop == [] then [] else Processor.cropCalls opts.Crop),
   (if opts.AutoOptim then [Processor.ImageOp.sharpen 1 1 (12 / 10)] else []),
   (if opts.Sharpen > 0 then [Processor.ImageOp.sharpen 1 1 opts.Sharpen] else []),
   (if opts.Blur > 0 then [Processor.ImageOp.gaussianBlur (opts.Blur : ℚ)] else []),
   (if opts.Grayscale then [Processor.ImageOp.toColorSpace .bw] else []),
   (if opts.Brightness ≠ 0 then
      [Processor.ImageOp.linear [1 + opts.Brightness / 100] [0]]
    else []),
   (if opts.Contrast ≠ 0 ∧ opts.Contrast ≠ 1 then
      [Processor.ImageOp.linear [opts.Contrast] [128 * (1 - opts.Contrast)]]
    else []),
   (if opts.Saturation ≠ 0 ∧ opts.Saturation ≠ 1 then
      [Processor.ImageOp.toColorSpace .lab,
       Processor.ImageOp.linear [1, opts.Saturation, opts.Saturation] [0, 0, 0],
       Processor.ImageOp.toColorSpace .original]
    else []),
   [Processor.exportCall opts]]

/-- The spec §4.7 stage numbers of the thirteen blocks of `stageSegs`
(the two sharpen stages share an engine call and stage number 6). -/
def stageKeys : List Nat := [1, 2, 3, 4, 5, 6, 6, 8, 9, 10, 11, 12, 13]

/-! ## Theorems -/

/-! ### Decimal formatting lemmas -/

theorem charVal_digitChar {d : Nat} (h : d < 10) : charVal (digitChar d) = d := by
  interval_cases d <;> decide

theorem digitChar_toNat {d : Nat} (h : d < 10) : (digitChar d).toNat = 48 + d := by
  interval_cases d <;> decide

theorem digitChar_ne_colon {d : Nat} (h : d < 10) : digitChar d ≠ ':' := by
  interval_cases d <;> decide

theorem digitChar_ne_hyphen {d : Nat} (h : d < 10) : digitChar d ≠ '-' := by
  interval_cases d <;> decide

theorem natDigitsRev_lt : ∀ fuel n d, d ∈ natDigitsRev fuel n → d < 10 := by
  intro fuel
  induction fuel with
  | zero => intro n d hd; simp [natDigitsRev] at hd
  | succ fuel ih =>
      intro n d hd
      by_cases h0 : n = 0
      · simp [natDigitsRev, h0] at hd
      · simp only [natDigitsRev, if_neg h0, List.mem_cons] at hd
        rcases hd with h | h
        · subst h; exact Nat.mod_lt _ (by norm_num)
        · exact ih _ _ h

theorem natNum_natDigitsRev : ∀ fuel n, n ≤ fuel → natNum (natDigitsRev fuel n) = n := by
  intro fuel
  induction fuel with
  | zero => intro n hn; interval_cases n; simp [natDigitsRev, natNum]
  | succ fuel ih =>
      intro n hn
      by_cases h0 : n = 0
      · simp [natDigitsRev, h0, natNum]
      · have hdiv : n / 10 ≤ fuel := by
          have h1 : n / 10 < n := Nat.div_lt_self (Nat.pos_of_ne_zero h0) (by norm_num)
          omega
        simp only [natDigitsRev, if_neg h0, natNum, ih _ hdiv]
        omega

theorem parseNatChars_natDigits (n : Nat) : parseNatChars (natDigits n) = n := by
  by_cases h0 : n = 0
  · subst h0; decide
  · have hmap : ((natDigitsRev n n).map digitChar).map charVal = natDigitsRev n n := by
      rw [List.map_map]
      have hcongr : List.map (charVal ∘ digitChar) (natDigitsRev n n) =
          List.map id (natDigitsRev n n) := by
        apply List.map_congr_left
        intro d hd
        simp [Function.comp, charVal_digitChar (natDigitsRev_lt _ _ _ hd)]
      rw [hcongr, List.map_id]
    simp only [parseNatChars, natDigits, if_neg h0, List.map_reverse,
      List.reverse_reverse, hmap]
    exact natNum_natDigitsRev n n le_rfl

theorem natDigits_inj {a b : Nat} (h : natDigits a = natDigits b) : a = b := by
  have := congrArg parseNatChars h
  rwa [parseNatChars_natDigits, parseNatChars_natDigits] at this

theorem mem_natDigits {c : Char} {n : Nat} (hc : c ∈ natDigits n) :
    ∃ d, d < 10 ∧ c = digitChar d := by
  by_cases h0 : n = 0
  · subst h0
    simp only [natDigits, if_pos] at hc
    simp only [List.mem_singleton] at hc
    exact ⟨0, by norm_num, hc⟩
  · simp only [natDigits, if_neg h0, List.mem_reverse, List.mem_map] at hc
    obtain ⟨d, hd, rfl⟩ := hc
    exact ⟨d, natDigitsRev_lt _ _ _ hd, rfl⟩

theorem natDigits_ne_nil (n : Nat) : natDigits n ≠ [] := by
  by_cases h0 : n = 0
  · subst h0; decide
  · simp only [natDigits, if_neg h0]
    intro hcon
    have h1 : natDigitsRev n n ≠ [] := by
      cases n with
      | zero => exact absurd rfl h0
      | succ m => simp [natDigitsRev, h0]
    simp only [List.reverse_eq_nil_iff, List.map_eq_nil_iff] at hcon
    exact h1 hcon

theorem colon_notMem_natDigits (n : Nat) : ':' ∉ natDigits n := by
  intro hc
  obtain ⟨d, hd, hcd⟩ := mem_natDigits hc
  exact digitChar_ne_colon hd hcd.symm

theorem hyphen_notMem_natDigits (n : Nat) : '-' ∉ natDigits n := by
  intro hc
  obtain ⟨d, hd, hcd⟩ := mem_natDigits hc
  exact digitChar_ne_hyphen hd hcd.symm

theorem fmtInt_inj {i j : Int} (h : fmtInt i = fmtInt j) : i = j := by
  unfold fmtInt at h
  by_cases hi : i < 0 <;> by_cases hj : j < 0
  · rw [if_pos hi, if_pos hj] at h
    simp only [List.cons.injEq, true_and] at h
    have := natDigits_inj h
    omega
  · rw [if_pos hi, if_neg hj] at h
    exact absurd (h ▸ List.mem_cons_self '-' (natDigits i.natAbs))
      (hyphen_notMem_natDigits _)
  · rw [if_neg hi, if_pos hj] at h
    exact absurd (h.symm ▸ List.mem_cons_self '-' (natDigits j.natAbs))
      (hyphen_notMem_natDigits _)
  · rw [if_neg hi, if_neg hj] at h
    have := natDigits_inj h
    omega

theorem colon_notMem_fmtInt (i : Int) : ':' ∉ fmtInt i := by
  unfold fmtInt
  split
  · intro hmem
    rcases List.mem_cons.mp hmem with h | h
    · exact absurd h.symm (by decide)
    · exact colon_notMem_natDigits _ h
  · exact colon_notMem_natDigits _

theorem digitChar_inj {d e : Nat} (hd : d < 10) (he : e < 10)
    (h : digitChar d = digitChar e) : d = e := by
  have h1 := charVal_digitChar hd
  have h2 := charVal_digitChar he
  rw [← h1, ← h2, h]

theorem digitChar_ne_dot {d : Nat} (h : d < 10) : digitChar d ≠ '.' := by
  interval_cases d <;> decide

theorem colon_notMem_f2digits (m : Nat) : ':' ∉ f2digits m := by
  unfold f2digits
  intro hmem
  rcases List.mem_append.mp hmem with h | h
  · exact colon_notMem_natDigits _ h
  · rcases List.mem_cons.mp h with h1 | h1
    · exact absurd h1.symm (by decide)
    · rcases List.mem_cons.mp h1 with h2 | h2
      · exact digitChar_ne_colon (Nat.div_lt_of_lt_mul (by omega)) h2.symm
      · rcases List.mem_cons.mp h2 with h3 | h3
        · exact digitChar_ne_colon (Nat.mod_lt _ (by norm_num)) h3.symm
        · simp at h3

theorem hyphen_notMem_f2digits (m : Nat) : '-' ∉ f2digits m := by
  unfold f2digits
  intro hmem
  rcases List.mem_append.mp hmem with h | h
  · exact hyphen_notMem_natDigits _ h
  · rcases List.mem_cons.mp h with h1 | h1
    · exact absurd h1.symm (by decide)
    · rcases List.mem_cons.mp h1 with h2 | h2
      · exact digitChar_ne_hyphen (Nat.div_lt_of_lt_mul (by omega)) h2.symm
      · rcases List.mem_cons.mp h2 with h3 | h3
        · exact digitChar_ne_hyphen (Nat.mod_lt _ (by norm_num)) h3.symm
        · simp at h3

theorem f2digits_inj {m1 m2 : Nat} (h : f2digits m1 = f2digits m2) : m1 = m2 := by
  unfold f2digits at h
  have hlen : ('.' :: [digitChar (m1 % 100 / 10), digitChar (m1 % 100 % 10)]).length =
      ('.' :: [digitChar (m2 % 100 / 10), digitChar (m2 % 100 % 10)]).length := rfl
  obtain ⟨hq, hr⟩ := List.append_inj' h hlen
  have hdiv := natDigits_inj hq
  simp only [List.cons.injEq, true_and, and_true] at hr
  have h10a : m1 % 100 / 10 < 10 := Nat.div_lt_of_lt_mul (by omega)
  have h10b : m2 % 100 / 10 < 10 := Nat.div_lt_of_lt_mul (by omega)
  have h10c : m1 % 100 % 10 < 10 := Nat.mod_lt _ (by norm_num)
  have h10d : m2 % 100 % 10 < 10 := Nat.mod_lt _ (by norm_num)
  have e1 := digitChar_inj h10a h10b hr.1
  have e2 := digitChar_inj h10c h10d hr.2
  omega

theorem colon_notMem_fmtF2 (q : ℚ) : ':' ∉ fmtF2 q := by
  unfold fmtF2
  intro hmem
  rcases List.mem_append.mp hmem with h | h
  · split at h
    · simp only [List.mem_singleton] at h
      exact absurd h.symm (by decide)
    · simp at h
  · exact colon_notMem_f2digits _ h

theorem colon_notMem_fmtBool (b : Bool) : ':' ∉ fmtBool b := by
  cases b <;> decide

theorem fmtBool_inj {a b : Bool} (h : fmtBool a = fmtBool b) : a = b := by
  cases a <;> cases b <;> first | rfl | simpa [fmtBool, cs] using h

theorem fmtF2_centi (z : ℤ) :
    fmtF2 ((z : ℚ) / 100) = (if z < 0 then ['-'] else []) ++ f2digits z.natAbs := by
  unfold fmtF2
  have hsign : ((z : ℚ) / 100 < 0) ↔ z < 0 := by
    rw [div_lt_iff (by norm_num : (0 : ℚ) < 100)]
    simp
  have habs : |(z : ℚ) / 100| * 100 = ((z.natAbs : ℤ) : ℚ) := by
    rw [abs_div, abs_of_pos (by norm_num : (0 : ℚ) < 100), div_mul_cancel₀]
    · rw [← Int.cast_abs, Int.abs_eq_natAbs]
    · norm_num
  have htn : ((z.natAbs : ℤ)).toNat = z.natAbs := by omega
  rw [habs, round_intCast, htn]
  congr 1
  simp only [hsign]

theorem fmtF2_inj_centi {z1 z2 : ℤ}
    (h : fmtF2 ((z1 : ℚ) / 100) = fmtF2 ((z2 : ℚ) / 100)) : z1 = z2 := by
  rw [fmtF2_centi, fmtF2_centi] at h
  by_cases h1 : z1 < 0 <;> by_cases h2 : z2 < 0
  · rw [if_pos h1, if_pos h2] at h
    simp only [List.cons_append, List.nil_append, List.cons.injEq, true_and] at h
    have := f2digits_inj h
    omega
  · rw [if_pos h1, if_neg h2] at h
    simp only [List.cons_append, List.nil_append] at h
    exact absurd (h ▸ List.mem_cons_self '-' (f2digits z1.natAbs))
      (hyphen_notMem_f2digits _)
  · rw [if_neg h1, if_pos h2] at h
    simp only [List.cons_append, List.nil_append] at h
    exact absurd (h.symm ▸ List.mem_cons_self '-' (f2digits z2.natAbs))
      (hyphen_notMem_f2digits _)
  · rw [if_neg h1, if_neg h2] at h
    simp only [List.nil_append] at h
    have := f2digits_inj h
    omega

theorem append_sep_inj : ∀ (a b u v : List Char), ':' ∉ a → ':' ∉ b →
    a ++ ':' :: u = b ++ ':' :: v → a = b ∧ u = v := by
  intro a
  induction a with
  | nil =>
      intro b u v _ hb h
      cases b with
      | nil => simpa using h
      | cons c bs =>
          simp only [List.nil_append, List.cons_append, List.cons.injEq] at h
          exact absurd (h.1 ▸ List.mem_cons_self c bs) hb
  | cons c as ih =>
      intro b u v ha hb h
      cases b with
      | nil =>
          simp only [List.cons_append, List.nil_append, List.cons.injEq] at h
          exact absurd (h.1 ▸ List.mem_cons_self c as) ha
      | cons d bs =>
          simp only [List.cons_append, List.cons.injEq] at h
          have ha2 : ':' ∉ as := fun hm => ha (List.mem_cons_of_mem c hm)
          have hb2 : ':' ∉ bs := fun hm => hb (List.mem_cons_of_mem d hm)
          obtain ⟨heq, hrest⟩ := ih bs u v ha2 hb2 h.2
          exact ⟨by rw [h.1, heq], hrest⟩

theorem sepJoin_inj : ∀ (xs ys : List (List Char)), xs.length = ys.length →
    (∀ s ∈ xs, ':' ∉ s) → (∀ s ∈ ys, ':' ∉ s) →
    sepJoin xs = sepJoin ys → xs = ys := by
  intro xs
  induction xs with
  | nil =>
      intro ys hlen _ _ _
      cases ys with
      | nil => rfl
      | cons y ys => simp at hlen
  | cons x xs ih =>
      intro ys hlen hxs hys hj
      cases ys with
      | nil => simp at hlen
      | cons y ys =>
          cases xs with
          | nil =>
              cases ys with
              | nil =>
                  simp only [sepJoin] at hj
                  rw [hj]
              | cons y2 ys2 => simp at hlen
          | cons x2 xs2 =>
              cases ys with
              | nil => simp at hlen
              | cons y2 ys2 =>
                  simp only [sepJoin] at hj
                  obtain ⟨hhead, htail⟩ := append_sep_inj x y _ _
                    (hxs x (List.mem_cons_self x _)) (hys y (List.mem_cons_self y _)) hj
                  have hrec := ih (y2 :: ys2) (by simpa using hlen)
                    (fun s hs => hxs s (List.mem_cons_of_mem x hs))
                    (fun s hs => hys s (List.mem_cons_of_mem y hs)) htail
                  rw [hhead, hrec]

/-! ### C1 — allow-list semantics -/

/-- C1 counterexample: the claim states that with allow-list
`["example.com"]` the host `evilexample.com` is denied and that a host is
never admitted when an entry is merely a trailing substring; the code's
`strings.HasSuffix` match admits it. -/
theorem auth_suffix_admits_evilexample :
    Middleware.authAllowed [cs "example.com"] (cs "evilexample.com") = true := by
  decide

/-- C1 (amended): the authorizer admits a host exactly when some allow-list
entry is `"*"`, or is non-empty and is the whole host or a trailing
substring of it (which admits subdomains, and also unrelated hosts that
merely end in the entry); `example.com` and `img.example.com` are admitted
under `["example.com"]`, and `["*"]` admits any host. -/
theorem auth_allowlist_suffix_semantics :
    (∀ domains host, Middleware.authAllowed domains host = true ↔
      ∃ d ∈ domains, d = cs "*" ∨ (d ≠ [] ∧ (host = d ∨ d <:+ host)))
    ∧ Middleware.authAllowed [cs "*"] (cs "any.host.example") = true
    ∧ Middleware.authAllowed [cs "example.com"] (cs "example.com") = true
    ∧ Middleware.authAllowed [cs "example.com"] (cs "img.example.com") = true := by
  refine ⟨?_, by decide, by decide, by decide⟩
  intro domains host
  rw [Middleware.authAllowed, List.any_eq_true]
  apply exists_congr
  intro d
  apply and_congr_right
  intro _
  simp only [Bool.or_eq_true, Bool.and_eq_true, Bool.not_eq_true',
    beq_iff_eq, beq_eq_false_iff_ne, List.isSuffixOf_iff_suffix, ne_eq]
  tauto

/-! ### C5 — cache-store failures are invisible -/

/-- C5: a failed `cache.Get` produces exactly the same run as a `redis.Nil`
miss (and that run reaches the downloader with the request's URL), and the
whole observable outcome — response and spawned cache write — is
independent of the outcome the detached `cache.Set` goroutine observes. -/
theorem cache_failures_invisible :
    ∀ (md5hex : List Char → List Char) (maxImageSize : Nat)
      (query : List Char → List Char) (fetch : Handler.FetchOutcome)
      (t : List Char → Processor.TransformOptions → Except Unit (List Char))
      (cg : Handler.CacheGetOutcome) (s s1 s2 : Handler.CacheSetOutcome),
      Handler.Transform md5hex maxImageSize query .missNil fetch t s =
        Handler.Transform md5hex maxImageSize query .storeFailure fetch t s
      ∧ (Handler.Transform md5hex maxImageSize query .storeFailure fetch t s).fetched =
          some (Handler.parseParams query).url
      ∧ Handler.Transform md5hex maxImageSize query cg fetch t s1 =
          Handler.Transform md5hex maxImageSize query cg fetch t s2 := by
  intro md5hex maxImageSize query fetch t cg s s1 s2
  refine ⟨rfl, ?_, rfl⟩
  unfold Handler.Transform
  cases hdl : Handler.downloadImage maxImageSize fetch with
  | error e => simp [hdl]
  | ok d =>
      simp only [hdl]
      split
      · rfl
      · cases ht : t d (Handler.optsOf (Handler.parseParams query)) with
        | error e => simp [ht]
        | ok out => simp [ht]

/-! ### C8 — host-resolution order in the Auth middleware -/

/-- C8 counterexample: the claim says a direct parse of the raw parameter
is attempted first.  On the raw string `http://evil.com%2F@good.com/a.png`
the direct parse succeeds (net/url reads host `good.com`, with
`evil.com%2F` as userinfo), yet the middleware returns the host of the
URL-decoded variant (`evil.com`), because the code decodes before its
first parse.  `parse`/`unescape` are finite tables mirroring the behaviour
of `url.Parse`/`url.QueryUnescape` on the two strings involved. -/
theorem auth_decode_before_parse_counterexample :
    (Middleware.authResolve
        (fun s =>
          if s == cs "http://evil.com%2F@good.com/a.png" then some ⟨cs "good.com"⟩
          else if s == cs "http://evil.com/@good.com/a.png" then some ⟨cs "evil.com"⟩
          else none)
        (fun s =>
          if s == cs "http://evil.com%2F@good.com/a.png" then
            some (cs "http://evil.com/@good.com/a.png")
          else none)
        (cs "http://evil.com%2F@good.com/a.png") = some ⟨cs "evil.com"⟩)
    ∧ (Middleware.specResolve
        (fun s =>
          if s == cs "http://evil.com%2F@good.com/a.png" then some ⟨cs "good.com"⟩
          else if s == cs "http://evil.com/@good.com/a.png" then some ⟨cs "evil.com"⟩
          else none)
        (fun s =>
          if s == cs "http://evil.com%2F@good.com/a.png" then
            some (cs "http://evil.com/@good.com/a.png")
          else none)
        (cs "http://evil.com%2F@good.com/a.png") = some ⟨cs "good.com"⟩)
    ∧ Middleware.URLInfo.mk (cs "evil.com") ≠ Middleware.URLInfo.mk (cs "good.com") := by
  refine ⟨by decide, by decide, by decide⟩

/-- C8 (amended): the middleware URL-decodes the raw parameter first
(falling back to the raw string when decoding fails) and parses the
decoded string; only if that parse fails does it parse the raw string
directly; the request is rejected as invalid input exactly when the url
parameter is missing or both parse attempts fail. -/
theorem auth_resolution_decode_first
    (parse : List Char → Option Middleware.URLInfo)
    (unescape : List Char → Option (List Char))
    (domains : List (List Char)) (raw d : List Char) (u : Middleware.URLInfo) :
    (unescape raw = none →
      Middleware.authResolve parse unescape raw = parse raw)
    ∧ (unescape raw = some d → parse d = some u →
      Middleware.authResolve parse unescape raw = some u)
    ∧ (unescape raw = some d → parse d = none →
      Middleware.authResolve parse unescape raw = parse raw)
    ∧ Middleware.Auth domains parse unescape [] = .missingURL
    ∧ (raw ≠ [] → Middleware.authResolve parse unescape raw = none →
      Middleware.Auth domains parse unescape raw = .invalidURL)
    ∧ (raw ≠ [] → Middleware.authResolve parse unescape raw = some u →
      Middleware.Auth domains parse unescape raw =
        (if Middleware.authAllowed domains u.host then .pass u.host else .forbidden)) := by
  refine ⟨?_, ?_, ?_, rfl, ?_, ?_⟩
  · intro h
    unfold Middleware.authResolve
    rw [h]
    cases hp : parse raw <;> simp [hp]
  · intro h hp
    unfold Middleware.authResolve
    rw [h]
    show (match parse d with | some v => some v | none => parse raw) = some u
    rw [hp]
  · intro h hp
    unfold Middleware.authResolve
    rw [h]
    show (match parse d with | some v => some v | none => parse raw) = parse raw
    rw [hp]
  · intro hraw hres
    unfold Middleware.Auth
    rw [if_neg (by simpa using hraw), hres]
  · intro hraw hres
    unfold Middleware.Auth
    rw [if_neg (by simpa using hraw), hres]

/-- C8 witness: the amended properties hold at concrete inputs — a failing
unescape falls back to the raw parse, and a successful decoded parse is
used directly. -/
theorem auth_resolution_decode_first_witness :
    (Middleware.authResolve (fun _ => some ⟨cs "h1"⟩) (fun _ => none) (cs "u") =
      (fun (_ : List Char) => some (Middleware.URLInfo.mk (cs "h1"))) (cs "u"))
    ∧ (Middleware.authResolve (fun _ => some ⟨cs "h1"⟩) (fun _ => some (cs "v")) (cs "u") =
      some ⟨cs "h1"⟩)
    ∧ (Middleware.Auth [cs "*"] (fun _ => some ⟨cs "h1"⟩) (fun _ => none) [] =
      Middleware.AuthResult.missingURL)
    ∧ (Middleware.Auth [] (fun _ => none) (fun _ => none) (cs "u") =
      Middleware.AuthResult.invalidURL) :=
  ⟨(auth_resolution_decode_first (fun _ => some ⟨cs "h1"⟩) (fun _ => none)
      [cs "*"] (cs "u") (cs "v") ⟨cs "h1"⟩).1 rfl,
   (auth_resolution_decode_first (fun _ => some ⟨cs "h1"⟩) (fun _ => some (cs "v"))
      [cs "*"] (cs "u") (cs "v") ⟨cs "h1"⟩).2.1 rfl rfl,
   (auth_resolution_decode_first (fun _ => some ⟨cs "h1"⟩) (fun _ => none)
      [cs "*"] (cs "u") (cs "v") ⟨cs "h1"⟩).2.2.2.1,
   (auth_resolution_decode_first (fun _ => none) (fun _ => none)
      [] (cs "u") (cs "v") ⟨cs "h1"⟩).2.2.2.2.1 (by decide) rfl⟩

/-! ### C3 — download size cap and oversize rejection -/

/-- C3: the downloader returns at most `maxImageSize + 1` bytes and its
result never depends on the declared length header; when the bytes
actually read exceed `maxImageSize`, the handler answers 413 with no cache
write, and the outcome is independent of the processor (the transform
stage is never consulted). -/
theorem download_cap_and_oversize_413
    (md5hex : List Char → List Char) (maxImageSize : Nat)
    (query : List Char → List Char) (cg : Handler.CacheGetOutcome)
    (fetch : Handler.FetchOutcome)
    (t1 t2 : List Char → Processor.TransformOptions → Except Unit (List Char))
    (s1 s2 : Handler.CacheSetOutcome) (data : List Char)
    (hcg : ∀ d, cg ≠ .hit d)
    (hdl : Handler.downloadImage maxImageSize fetch = .ok data)
    (hbig : (data.length : Int) > (maxImageSize : Int)) :
    (∀ f d, Handler.downloadImage maxImageSize f = .ok d →
      d.length ≤ maxImageSize + 1)
    ∧ (∀ st len1 len2 b,
      Handler.downloadImage maxImageSize (.resp ⟨st, len1, b⟩) =
        Handler.downloadImage maxImageSize (.resp ⟨st, len2, b⟩))
    ∧ Handler.Transform md5hex maxImageSize query cg fetch t1 s1 =
        { response := Handler.errorResponse 413 (cs "Image too large"),
          cacheWrite := none, fetched := some (Handler.parseParams query).url }
    ∧ Handler.Transform md5hex maxImageSize query cg fetch t1 s1 =
        Handler.Transform md5hex maxImageSize query cg fetch t2 s2 := by
  refine ⟨?_, ?_, ?_, ?_⟩
  · intro f d h
    cases f with
    | netErr => exact Except.noConfusion h
    | resp r =>
        simp only [Handler.downloadImage] at h
        split at h
        · exact Except.noConfusion h
        · simp only [Except.ok.injEq] at h
          rw [← h, List.length_take]
          exact min_le_left _ _
  · intro st len1 len2 b
    rfl
  · cases cg with
    | hit d => exact absurd rfl (hcg d)
    | missNil =>
        unfold Handler.Transform
        simp only [hdl]
        rw [if_pos hbig]
    | storeFailure =>
        unfold Handler.Transform
        simp only [hdl]
        rw [if_pos hbig]
  · cases cg with
    | hit d => exact absurd rfl (hcg d)
    | missNil =>
        unfold Handler.Transform
        simp only [hdl]
        rw [if_pos hbig, if_pos hbig]
    | storeFailure =>
        unfold Handler.Transform
        simp only [hdl]
        rw [if_pos hbig, if_pos hbig]

/-- C3 witness: with `maxImageSize = 2` and a four-byte upstream body, the
capped read returns three bytes, which exceed the maximum, so the request
fails with 413 and no cache write. -/
theorem download_cap_and_oversize_413_witness :
    Handler.Transform id 2 (fun _ => []) .missNil
      (.resp ⟨200, none, cs "AAAA"⟩) (fun _ _ => .ok []) .ok =
      { response := Handler.errorResponse 413 (cs "Image too large"),
        cacheWrite := none, fetched := some (Handler.parseParams (fun _ => [])).url } :=
  (download_cap_and_oversize_413 id 2 (fun _ => []) .missNil
      (.resp ⟨200, none, cs "AAAA"⟩) (fun _ _ => .ok []) (fun _ _ => .ok [])
      .ok .ok (cs "AAA") (fun d h => Handler.CacheGetOutcome.noConfusion h)
      (by rfl) (by decide)).2.2.1

/-! ### C4 — SVG passthrough -/

/-- C4 counterexample: the four-byte payload `<svg` contains an opening
vector tag within its (entire) prefix, so the claim's description
classifies it as vector; the code's `isSVG` rejects any payload shorter
than five bytes, so the payload is sent through the processor and the
served body is the processor's output, not the payload. -/
theorem svg_passthrough_counterexample :
    Handler.specVectorClass (cs "<svg") = true
    ∧ Handler.isSVG (cs "<svg") = false
    ∧ (Handler.TransformV2 (fun s => s) (fun _ => some ⟨[]⟩) 100
        (fun _ => []) .missNil (.resp ⟨200, none, cs "<svg"⟩)
        (fun _ _ => .ok (cs "RASTER")) .ok).response.body =
      Handler.RespBody.imageBytes (cs "RASTER")
    ∧ Handler.RespBody.imageBytes (cs "RASTER") ≠ .imageBytes (cs "<svg") := by
  refine ⟨by decide, by decide, by decide, by decide⟩

/-- C4 (amended): for a downloaded, size-admitted payload that the sniffer
classifies as vector — at least five bytes, and the first
`min 500 (length)` bytes, lower-cased, contain an opening vector tag, a
vector doctype, or an XML prologue together with the substring `svg` — the
response is the payload itself, byte for byte, under the vector content
type with a MISS mark; the payload is what gets cached, and the outcome is
the same whatever the processor would have answered, for every combination
of transform parameters. -/
theorem svg_passthrough_of_isSVG
    (md5hex : List Char → List Char)
    (parse : List Char → Option Middleware.URLInfo)
    (maxImageSize : Nat) (query : List Char → List Char)
    (cg : Handler.CacheGetOutcome) (fetch : Handler.FetchOutcome)
    (t1 t2 : List Char → Processor.TransformOptions → Except Unit (List Char))
    (s1 s2 : Handler.CacheSetOutcome) (data : List Char)
    (hcg : ∀ d, cg ≠ .hit d)
    (hdl : Handler.downloadImageV2 parse maxImageSize
      (Handler.parseParams query).url fetch = .ok data)
    (hsize : (data.length : Int) ≤ (maxImageSize : Int))
    (hsvg : Handler.isSVG data = true) :
    Handler.TransformV2 md5hex parse maxImageSize query cg fetch t1 s1 =
      { response := Handler.imageResponse (cs "image/svg+xml") (cs "MISS") data,
        cacheWrite := some
          (Handler.generateCacheKey md5hex (Handler.parseParams query), data),
        fetched := some (Handler.parseParams query).url }
    ∧ Handler.TransformV2 md5hex parse maxImageSize query cg fetch t1 s1 =
      Handler.TransformV2 md5hex parse maxImageSize query cg fetch t2 s2 := by
  cases cg with
  | hit d => exact absurd rfl (hcg d)
  | missNil =>
      unfold Handler.TransformV2
      simp only [hdl]
      rw [if_neg (not_lt.mpr hsize), if_neg (not_lt.mpr hsize),
        if_pos hsvg, if_pos hsvg]
      exact ⟨rfl, rfl⟩
  | storeFailure =>
      unfold Handler.TransformV2
      simp only [hdl]
      rw [if_neg (not_lt.mpr hsize), if_neg (not_lt.mpr hsize),
        if_pos hsvg, if_pos hsvg]
      exact ⟨rfl, rfl⟩

/-- C4 witness: a concrete SVG payload is served unchanged and cached. -/
theorem svg_passthrough_of_isSVG_witness :
    Handler.TransformV2 (fun s => s) (fun _ => some ⟨[]⟩) 100 (fun _ => [])
      .missNil (.resp ⟨200, none, cs "<svg width=3/>"⟩)
      (fun _ _ => .ok []) .ok =
      { response := Handler.imageResponse (cs "image/svg+xml") (cs "MISS")
          (cs "<svg width=3/>"),
        cacheWrite := some
          (Handler.generateCacheKey (fun s => s) (Handler.parseParams (fun _ => [])),
           cs "<svg width=3/>"),
        fetched := some (Handler.parseParams (fun _ => [])).url } :=
  (svg_passthrough_of_isSVG (fun s => s) (fun _ => some ⟨[]⟩) 100 (fun _ => [])
      .missNil (.resp ⟨200, none, cs "<svg width=3/>"⟩)
      (fun _ _ => .ok []) (fun _ _ => .ok []) .ok .ok (cs "<svg width=3/>")
      (fun d h => Handler.CacheGetOutcome.noConfusion h)
      (by rfl) (by decide) (by decide)).1

/-! ### C2 — cache-key injectivity -/

/-- C2 counterexample: two requests that differ only in the sharpen field
(0.001 vs 0.002) are distinct, yet the `%.2f` rounding of the template
serializes both to the same string, so the MD5 digest of that string — the
cache key — is also the same (shown here with the digest abstracted as any
function of the serialized string, instantiated to the identity). -/
theorem cacheKey_collision_below_rounding :
    (⟨cs "a.com/i", 100, 0, cs "cover", cs "jpeg", 80, [], 0,
        1 / 1000, 0, 1, 1, false, false, [], 0, [], true⟩ : Handler.ReqParams) ≠
      ⟨cs "a.com/i", 100, 0, cs "cover", cs "jpeg", 80, [], 0,
        1 / 500, 0, 1, 1, false, false, [], 0, [], true⟩
    ∧ Handler.serializeRequest
        ⟨cs "a.com/i", 100, 0, cs "cover", cs "jpeg", 80, [], 0,
          1 / 1000, 0, 1, 1, false, false, [], 0, [], true⟩ =
      Handler.serializeRequest
        ⟨cs "a.com/i", 100, 0, cs "cover", cs "jpeg", 80, [], 0,
          1 / 500, 0, 1, 1, false, false, [], 0, [], true⟩
    ∧ Handler.generateCacheKey (fun s => s)
        ⟨cs "a.com/i", 100, 0, cs "cover", cs "jpeg", 80, [], 0,
          1 / 1000, 0, 1, 1, false, false, [], 0, [], true⟩ =
      Handler.generateCacheKey (fun s => s)
        ⟨cs "a.com/i", 100, 0, cs "cover", cs "jpeg", 80, [], 0,
          1 / 500, 0, 1, 1, false, false, [], 0, [], true⟩ := by
  have hf : fmtF2 (1 / 1000 : ℚ) = fmtF2 (1 / 500 : ℚ) := by
    unfold fmtF2
    rw [if_neg (by norm_num), if_neg (by norm_num),
      abs_of_pos (by norm_num), abs_of_pos (by norm_num)]
    have h1 : round ((1 : ℚ) / 1000 * 100) = 0 := by norm_num [round_eq]
    have h2 : round ((1 : ℚ) / 500 * 100) = 0 := by norm_num [round_eq]
    rw [h1, h2]
  have hser : Handler.serializeRequest
      ⟨cs "a.com/i", 100, 0, cs "cover", cs "jpeg", 80, [], 0,
        1 / 1000, 0, 1, 1, false, false, [], 0, [], true⟩ =
      Handler.serializeRequest
      ⟨cs "a.com/i", 100, 0, cs "cover", cs "jpeg", 80, [], 0,
        1 / 500, 0, 1, 1, false, false, [], 0, [], true⟩ := by
    simp only [Handler.serializeRequest, Handler.serializeFields, hf]
  refine ⟨?_, hser, congrArg (fun s => s) hser⟩
  intro hEq
  have hsh : (1 / 1000 : ℚ) = 1 / 500 := congrArg Handler.ReqParams.sharpen hEq
  norm_num at hsh

/-- C2 (amended): the key builder is deterministic — the key is a function
of the serialized string — and the serialization is injective on the
canonical domain: requests whose string fields contain no `':'` (the
template separator) and whose float fields carry no precision beyond the
two decimals kept by `%.2f`.  Outside that domain distinct requests can
share a key: float differences below 0.01 (the counterexample) and `':'`
in adjacent string fields both collapse the serialization. -/
theorem cacheKey_injective_on_canonical_domain
    (p1 p2 : Handler.ReqParams)
    (hf1 : sepFreeFields p1) (hf2 : sepFreeFields p2)
    (hc1 : centesimalFloats p1) (hc2 : centesimalFloats p2)
    (h : Handler.serializeRequest p1 = Handler.serializeRequest p2) :
    p1 = p2 := by
  obtain ⟨u1, w1, h1, fit1, fo1, q1, cr1, bl1, sh1, br1, co1, sa1,
    ao1, gr1, fl1, ro1, bg1, st1⟩ := p1
  obtain ⟨u2, w2, h2, fit2, fo2, q2, cr2, bl2, sh2, br2, co2, sa2,
    ao2, gr2, fl2, ro2, bg2, st2⟩ := p2
  obtain ⟨hu1, hfit1, hfo1, hcr1, hfl1, hbg1⟩ := hf1
  obtain ⟨hu2, hfit2, hfo2, hcr2, hfl2, hbg2⟩ := hf2
  obtain ⟨⟨zs1, hzs1⟩, ⟨zb1, hzb1⟩, ⟨zc1, hzc1⟩, ⟨zt1, hzt1⟩⟩ := hc1
  obtain ⟨⟨zs2, hzs2⟩, ⟨zb2, hzb2⟩, ⟨zc2, hzc2⟩, ⟨zt2, hzt2⟩⟩ := hc2
  dsimp only at hu1 hfit1 hfo1 hcr1 hfl1 hbg1 hu2 hfit2 hfo2 hcr2 hfl2 hbg2 hzs1 hzb1 hzc1 hzt1 hzs2 hzb2 hzc2 hzt2
  have hfree1 : ∀ s ∈ Handler.serializeFields
      ⟨u1, w1, h1, fit1, fo1, q1, cr1, bl1, sh1, br1, co1, sa1,
        ao1, gr1, fl1, ro1, bg1, st1⟩, ':' ∉ s := by
    intro s hs
    simp only [Handler.serializeFields, List.mem_cons, List.not_mem_nil,
      or_false] at hs
    rcases hs with rfl|rfl|rfl|rfl|rfl|rfl|rfl|rfl|rfl|rfl|rfl|rfl|rfl|rfl|rfl|rfl|rfl|rfl
    exacts [hu1, colon_notMem_fmtInt _, colon_notMem_fmtInt _, hfit1, hfo1,
      colon_notMem_fmtInt _, hcr1, colon_notMem_fmtInt _, colon_notMem_fmtF2 _,
      colon_notMem_fmtF2 _, colon_notMem_fmtF2 _, colon_notMem_fmtF2 _,
      colon_notMem_fmtBool _, colon_notMem_fmtBool _, hfl1,
      colon_notMem_fmtInt _, hbg1, colon_notMem_fmtBool _]
  have hfree2 : ∀ s ∈ Handler.serializeFields
      ⟨u2, w2, h2, fit2, fo2, q2, cr2, bl2, sh2, br2, co2, sa2,
        ao2, gr2, fl2, ro2, bg2, st2⟩, ':' ∉ s := by
    intro s hs
    simp only [Handler.serializeFields, List.mem_cons, List.not_mem_nil,
      or_false] at hs
    rcases hs with rfl|rfl|rfl|rfl|rfl|rfl|rfl|rfl|rfl|rfl|rfl|rfl|rfl|rfl|rfl|rfl|rfl|rfl
    exacts [hu2, colon_notMem_fmtInt _, colon_notMem_fmtInt _, hfit2, hfo2,
      colon_notMem_fmtInt _, hcr2, colon_notMem_fmtInt _, colon_notMem_fmtF2 _,
      colon_notMem_fmtF2 _, colon_notMem_fmtF2 _, colon_notMem_fmtF2 _,
      colon_notMem_fmtBool _, colon_notMem_fmtBool _, hfl2,
      colon_notMem_fmtInt _, hbg2, colon_notMem_fmtBool _]
  have hfields := sepJoin_inj _ _ (by rfl) hfree1 hfree2 h
  simp only [Handler.serializeFields, List.cons.injEq, and_true] at hfields
  obtain ⟨e1, e2, e3, e4, e5, e6, e7, e8, e9, e10, e11, e12, e13, e14, e15,
    e16, e17, e18⟩ := hfields
  have hsh : sh1 = sh2 := by
    rw [hzs1, hzs2]
    rw [hzs1, hzs2] at e9
    rw [fmtF2_inj_centi e9]
  have hbr : br1 = br2 := by
    rw [hzb1, hzb2]
    rw [hzb1, hzb2] at e10
    rw [fmtF2_inj_centi e10]
  have hco : co1 = co2 := by
    rw [hzc1, hzc2]
    rw [hzc1, hzc2] at e11
    rw [fmtF2_inj_centi e11]
  have hsa : sa1 = sa2 := by
    rw [hzt1, hzt2]
    rw [hzt1, hzt2] at e12
    rw [fmtF2_inj_centi e12]
  simp only [Handler.ReqParams.mk.injEq]
  exact ⟨e1, fmtInt_inj e2, fmtInt_inj e3, e4, e5, fmtInt_inj e6, e7,
    fmtInt_inj e8, hsh, hbr, hco, hsa, fmtBool_inj e13, fmtBool_inj e14,
    e15, fmtInt_inj e16, e17, fmtBool_inj e18⟩

/-- C2 witness: the injectivity theorem applied at a concrete request in
the canonical domain. -/
theorem cacheKey_injective_on_canonical_domain_witness :
    (⟨cs "a.com/i", 100, 50, cs "cover", cs "jpeg", 80, cs "1,2,3,4", 2,
        0, 0, 1, 1, false, false, cs "h", 90, cs "ffffff", true⟩ :
      Handler.ReqParams) =
      ⟨cs "a.com/i", 100, 50, cs "cover", cs "jpeg", 80, cs "1,2,3,4", 2,
        0, 0, 1, 1, false, false, cs "h", 90, cs "ffffff", true⟩ :=
  cacheKey_injective_on_canonical_domain _ _
    ⟨by decide, by decide, by decide, by decide, by decide, by decide⟩
    ⟨by decide, by decide, by decide, by decide, by decide, by decide⟩
    ⟨⟨0, by norm_num⟩, ⟨0, by norm_num⟩, ⟨100, by norm_num⟩, ⟨100, by norm_num⟩⟩
    ⟨⟨0, by norm_num⟩, ⟨0, by norm_num⟩, ⟨100, by norm_num⟩, ⟨100, by norm_num⟩⟩
    rfl

/-! ### C9 — raw URL for fetch/key, decoded host for authorization -/

/-- C9: the handler hands the raw `url` query value, exactly as received,
to the downloader and to the cache-key builder (it is the `url` field of
the serialized request), while the Auth middleware decides on the host
parsed from the URL-decoded variant whenever decoding succeeds and the
decoded string parses; and the serialization is injective in the `url`
field with all other fields fixed, so two requests differing only in
percent-encoding have different pre-hash strings, hence different MD5
keys barring a digest collision, and are fetched independently. -/
theorem raw_url_fetch_key_decoded_auth
    (md5hex : List Char → List Char) (maxImageSize : Nat)
    (query : List Char → List Char) (cg : Handler.CacheGetOutcome)
    (fetch : Handler.FetchOutcome)
    (t : List Char → Processor.TransformOptions → Except Unit (List Char))
    (s : Handler.CacheSetOutcome) (domains : List (List Char))
    (parse : List Char → Option Middleware.URLInfo)
    (unescape : List Char → Option (List Char)) (d : List Char)
    (u : Middleware.URLInfo)
    (hcg : ∀ b, cg ≠ .hit b)
    (hraw : query (cs "url") ≠ [])
    (hun : unescape (query (cs "url")) = some d)
    (hp : parse d = some u) :
    (Handler.parseParams query).url = query (cs "url")
    ∧ (Handler.Transform md5hex maxImageSize query cg fetch t s).fetched =
        some (query (cs "url"))
    ∧ Middleware.Auth domains parse unescape (query (cs "url")) =
        (if Middleware.authAllowed domains u.host then .pass u.host
         else .forbidden)
    ∧ (∀ (pp : Handler.ReqParams) (u1 u2 : List Char), u1 ≠ u2 →
        Handler.serializeRequest { pp with url := u1 } ≠
          Handler.serializeRequest { pp with url := u2 }) := by
  refine ⟨rfl, ?_, ?_, ?_⟩
  · cases cg with
    | hit b => exact absurd rfl (hcg b)
    | missNil =>
        unfold Handler.Transform
        cases hdl : Handler.downloadImage maxImageSize fetch with
        | error e =>
            simp only [hdl]
            rfl
        | ok dd =>
            simp only [hdl]
            split
            · rfl
            · cases ht : t dd (Handler.optsOf (Handler.parseParams query)) with
              | error e =>
                  simp only [ht]
                  rfl
              | ok out =>
                  simp only [ht]
                  rfl
    | storeFailure =>
        unfold Handler.Transform
        cases hdl : Handler.downloadImage maxImageSize fetch with
        | error e =>
            simp only [hdl]
            rfl
        | ok dd =>
            simp only [hdl]
            split
            · rfl
            · cases ht : t dd (Handler.optsOf (Handler.parseParams query)) with
              | error e =>
                  simp only [ht]
                  rfl
              | ok out =>
                  simp only [ht]
                  rfl
  · unfold Middleware.Auth
    rw [if_neg (by simpa using hraw)]
    have hres : Middleware.authResolve parse unescape (query (cs "url")) = some u := by
      unfold Middleware.authResolve
      rw [hun]
      show (match parse d with
        | some v => some v
        | none => parse (query (cs "url"))) = some u
      rw [hp]
    rw [hres]
  · intro pp u1 u2 hne heq
    apply hne
    simp only [Handler.serializeRequest, Handler.serializeFields, sepJoin] at heq
    exact (List.append_inj' heq rfl).1

/-- C9 witness: the non-hypothetical conjuncts at concrete inputs — the
fetched URL is the raw query value, authorization follows the decoded
host, and changing only the url changes the serialization. -/
theorem raw_url_fetch_key_decoded_auth_witness :
    (Handler.parseParams (fun _ => cs "u%2Fv")).url = cs "u%2Fv"
    ∧ (Handler.Transform id 9 (fun _ => cs "u%2Fv") .missNil .netErr
        (fun _ _ => .ok []) .ok).fetched = some (cs "u%2Fv")
    ∧ Middleware.Auth [cs "*"] (fun _ => some ⟨cs "h.example"⟩)
        (fun _ => some (cs "u/v")) (cs "u%2Fv") =
        (if Middleware.authAllowed [cs "*"] (cs "h.example") then
          .pass (cs "h.example") else .forbidden)
    ∧ Handler.serializeRequest
        { url := cs "a%20b", w := 0, h := 0, fit := cs "cover",
          format := cs "jpeg", quality := 80, crop := [], blur := 0,
          sharpen := 0, brightness := 0, contrast := 1, saturation := 1,
          autoOptim := false, grayscale := false, flip := [], rotate := 0,
          background := [], strip := true } ≠
      Handler.serializeRequest
        { url := cs "a b", w := 0, h := 0, fit := cs "cover",
          format := cs "jpeg", quality := 80, crop := [], blur := 0,
          sharpen := 0, brightness := 0, contrast := 1, saturation := 1,
          autoOptim := false, grayscale := false, flip := [], rotate := 0,
          background := [], strip := true } := by
  have base := raw_url_fetch_key_decoded_auth id 9 (fun _ => cs "u%2Fv")
    .missNil .netErr (fun _ _ => .ok []) .ok [cs "*"]
    (fun _ => some ⟨cs "h.example"⟩) (fun _ => some (cs "u/v")) (cs "u/v")
    ⟨cs "h.example"⟩ (fun b h => Handler.CacheGetOutcome.noConfusion h)
    (by decide) rfl rfl
  exact ⟨base.1, base.2.1, by rw [base.2.2.1],
    base.2.2.2
      { url := [], w := 0, h := 0, fit := cs "cover", format := cs "jpeg",
        quality := 80, crop := [], blur := 0, sharpen := 0, brightness := 0,
        contrast := 1, saturation := 1, autoOptim := false, grayscale := false,
        flip := [], rotate := 0, background := [], strip := true }
      (cs "a%20b") (cs "a b") (by decide)⟩

/-! ### C10 — total, defaulting query parsing -/

/-- C10: query parsing is a total function that rejects nothing: an
unparsable or out-of-range (outside 1-100) quality becomes 80, an
unparsable or zero contrast or saturation becomes 1, unparsable integer
parameters (w, h, blur, rotate) and float parameters (sharpen,
brightness) become 0, an empty fit becomes `cover`, an empty format
becomes `jpeg`, and strip is true unless the parameter is exactly
`false`. -/
theorem query_parsing_total_defaults (query : List Char → List Char) :
    (Handler.parseIntGo (query (cs "q")) = none →
      (Handler.parseParams query).quality = 80)
    ∧ (Handler.atoi (query (cs "q")) ≤ 0 ∨ Handler.atoi (query (cs "q")) > 100 →
      (Handler.parseParams query).quality = 80)
    ∧ (1 ≤ Handler.atoi (query (cs "q")) → Handler.atoi (query (cs "q")) ≤ 100 →
      (Handler.parseParams query).quality = Handler.atoi (query (cs "q")))
    ∧ (Handler.parseFloatVal (query (cs "contrast")) = 0 →
      (Handler.parseParams query).contrast = 1)
    ∧ (Handler.parseFloatGo (query (cs "contrast")) = none →
      (Handler.parseParams query).contrast = 1)
    ∧ (Handler.parseFloatVal (query (cs "saturation")) = 0 →
      (Handler.parseParams query).saturation = 1)
    ∧ (Handler.parseFloatGo (query (cs "saturation")) = none →
      (Handler.parseParams query).saturation = 1)
    ∧ (Handler.parseIntGo (query (cs "w")) = none →
      (Handler.parseParams query).w = 0)
    ∧ (Handler.parseIntGo (query (cs "h")) = none →
      (Handler.parseParams query).h = 0)
    ∧ (Handler.parseIntGo (query (cs "blur")) = none →
      (Handler.parseParams query).blur = 0)
    ∧ (Handler.parseIntGo (query (cs "rotate")) = none →
      (Handler.parseParams query).rotate = 0)
    ∧ (Handler.parseFloatGo (query (cs "sharpen")) = none →
      (Handler.parseParams query).sharpen = 0)
    ∧ (Handler.parseFloatGo (query (cs "brightness")) = none →
      (Handler.parseParams query).brightness = 0)
    ∧ (query (cs "fit") = [] → (Handler.parseParams query).fit = cs "cover")
    ∧ (query (cs "f") = [] → (Handler.parseParams query).format = cs "jpeg")
    ∧ (Handler.parseParams query).strip = !(query (cs "strip") == cs "false") := by
  unfold Handler.parseParams
  dsimp only
  refine ⟨?_, ?_, ?_, ?_, ?_, ?_, ?_, ?_, ?_, ?_, ?_, ?_, ?_, ?_, ?_, rfl⟩
  · intro hq
    rw [if_pos]
    unfold Handler.atoi
    rw [hq]
    left
    rfl
  · intro hq
    rw [if_pos]
    omega
  · intro hq1 hq2
    rw [if_neg]
    omega
  · intro hc
    unfold Handler.parseFloatVal at hc
    rw [if_pos]
    exact hc
  · intro hc
    rw [if_pos]
    unfold Handler.parseFloatVal
    rw [hc]
    rfl
  · intro hc
    unfold Handler.parseFloatVal at hc
    rw [if_pos]
    exact hc
  · intro hc
    rw [if_pos]
    unfold Handler.parseFloatVal
    rw [hc]
    rfl
  · intro hw
    unfold Handler.atoi
    rw [hw]
  · intro hh
    unfold Handler.atoi
    rw [hh]
  · intro hb
    unfold Handler.atoi
    rw [hb]
  · intro hr
    unfold Handler.atoi
    rw [hr]
  · intro hs
    unfold Handler.parseFloatVal
    rw [hs]
    rfl
  · intro hs
    unfold Handler.parseFloatVal
    rw [hs]
    rfl
  · intro hfit
    rw [if_pos (by simpa using hfit)]
  · intro hfmt
    rw [if_pos (by simpa using hfmt)]

/-- C10 witness: the defaults at the all-absent query (every parameter the
empty string). -/
theorem query_parsing_total_defaults_witness :
    (Handler.parseParams (fun _ => [])).quality = 80
    ∧ (Handler.parseParams (fun _ => [])).contrast = 1
    ∧ (Handler.parseParams (fun _ => [])).saturation = 1
    ∧ (Handler.parseParams (fun _ => [])).w = 0
    ∧ (Handler.parseParams (fun _ => [])).sharpen = 0
    ∧ (Handler.parseParams (fun _ => [])).fit = cs "cover"
    ∧ (Handler.parseParams (fun _ => [])).format = cs "jpeg"
    ∧ (Handler.parseParams (fun _ => [])).strip = true := by
  have base := query_parsing_total_defaults (fun _ => [])
  exact ⟨base.1 rfl, base.2.2.2.2.1 rfl, base.2.2.2.2.2.2.1 rfl,
    base.2.2.2.2.2.2.2.1 rfl, base.2.2.2.2.2.2.2.2.2.2.2.1 rfl,
    base.2.2.2.2.2.2.2.2.2.2.2.2.2.1 rfl,
    base.2.2.2.2.2.2.2.2.2.2.2.2.2.2.1 rfl,
    base.2.2.2.2.2.2.2.2.2.2.2.2.2.2.2⟩

/-! ### C7 — token-bucket rate limiting (spec-modelled) -/

/-- From a bucket with `tok` tokens last refilled at the very instant of
the calls, `n ≤ tok` consecutive checks all succeed and leave `tok - n`
tokens. -/
theorem consumeRun_full (cap rate t : ℚ) :
    ∀ (n : Nat) (tok : ℚ), (n : ℚ) ≤ tok → tok ≤ cap →
    Middleware.consumeRun cap rate t n ⟨tok, t⟩ =
      (List.replicate n true, ⟨tok - n, t⟩) := by
  intro n
  induction n with
  | zero =>
      intro tok h1 h2
      simp [Middleware.consumeRun]
  | succ n ih =>
      intro tok h1 h2
      have hcast : ((n : ℚ) + 1) ≤ tok := by push_cast at h1; linarith
      have htok1 : 1 ≤ tok := by
        have : (0 : ℚ) ≤ n := by positivity
        linarith
      have hcheck : Middleware.checkBucket cap rate t ⟨tok, t⟩ =
          (true, ⟨tok - 1, t⟩) := by
        unfold Middleware.checkBucket Middleware.refillBucket
        dsimp only
        rw [sub_self, zero_mul, add_zero, min_eq_right h2, if_pos htok1]
      unfold Middleware.consumeRun
      rw [hcheck]
      dsimp only
      rw [ih (tok - 1) (by linarith) (by linarith)]
      simp only [List.replicate_succ, Prod.mk.injEq, Middleware.Bucket.mk.injEq]
      refine ⟨trivial, ?_, trivial⟩
      push_cast
      ring

/-- C7 (spec-modelled): with capacity and refill rate `N` per second, a
client starting from a full bucket gets `N` consecutive admissions within
one instant, the `(N+1)`-th check at the same instant is denied
immediately (the model returns the decision synchronously — nothing is
queued), after a full one-second refill interval the client is admitted
again, a check for one client leaves every other client's bucket
untouched, and a first-ever check for a client (lazily created full
bucket) is admitted. -/
theorem rate_limiter_token_bucket (N : Nat) (t : ℚ) (hN : 1 ≤ N) :
    (Middleware.consumeRun N N t N ⟨N, t⟩).1 = List.replicate N true
    ∧ (Middleware.checkBucket N N t (Middleware.consumeRun N N t N ⟨N, t⟩).2).1 =
        false
    ∧ (Middleware.checkBucket N N (t + 1)
        (Middleware.checkBucket N N t (Middleware.consumeRun N N t N ⟨N, t⟩).2).2).1 =
        true
    ∧ (∀ (table : List Char → Option Middleware.Bucket) (key key2 : List Char)
        (now : ℚ), key ≠ key2 →
        (Middleware.rateLimiterCheck N N table key now).2 key2 = table key2)
    ∧ (∀ (table : List Char → Option Middleware.Bucket) (key : List Char)
        (now : ℚ), table key = none →
        (Middleware.rateLimiterCheck N N table key now).1 = true) := by
  have hrun := consumeRun_full N N t N N le_rfl le_rfl
  have hb1 : Middleware.checkBucket N N t (Middleware.consumeRun N N t N ⟨N, t⟩).2 =
      (false, ⟨0, t⟩) := by
    rw [hrun]
    unfold Middleware.checkBucket Middleware.refillBucket
    dsimp only
    rw [sub_self, sub_self, zero_mul, add_zero,
      min_eq_right (Nat.cast_nonneg N), if_neg (by norm_num)]
  refine ⟨?_, ?_, ?_, ?_, ?_⟩
  · rw [hrun]
  · rw [hb1]
  · rw [hb1]
    unfold Middleware.checkBucket Middleware.refillBucket
    dsimp only
    have helapsed : (0 : ℚ) + (t + 1 - t) * N = N := by ring
    rw [helapsed, min_self, if_pos (by exact_mod_cast hN)]
  · intro table key key2 now hne
    have hbeq : (key2 == key) = false :=
      beq_eq_false_iff_ne.mpr (Ne.symm hne)
    unfold Middleware.rateLimiterCheck
    dsimp only
    rw [hbeq]
    rfl
  · intro table key now htab
    unfold Middleware.rateLimiterCheck Middleware.checkBucket Middleware.refillBucket
    dsimp only
    rw [htab]
    dsimp only [Option.getD]
    rw [sub_self, zero_mul, add_zero, min_self, if_pos (by exact_mod_cast hN)]

/-- C7 witness: the token-bucket behaviour at capacity 2 and start time
0 — two admissions, then a denial, then admission again after a full
refill second. -/
theorem rate_limiter_token_bucket_witness :
    (Middleware.consumeRun ((2 : Nat) : ℚ) ((2 : Nat) : ℚ) 0 2
      ⟨((2 : Nat) : ℚ), 0⟩).1 = List.replicate 2 true
    ∧ (Middleware.checkBucket ((2 : Nat) : ℚ) ((2 : Nat) : ℚ) 0
        (Middleware.consumeRun ((2 : Nat) : ℚ) ((2 : Nat) : ℚ) 0 2
          ⟨((2 : Nat) : ℚ), 0⟩).2).1 = false
    ∧ (Middleware.checkBucket ((2 : Nat) : ℚ) ((2 : Nat) : ℚ) (0 + 1)
        (Middleware.checkBucket ((2 : Nat) : ℚ) ((2 : Nat) : ℚ) 0
          (Middleware.consumeRun ((2 : Nat) : ℚ) ((2 : Nat) : ℚ) 0 2
            ⟨((2 : Nat) : ℚ), 0⟩).2).2).1 = true :=
  ⟨(rate_limiter_token_bucket 2 0 (by norm_num)).1,
   (rate_limiter_token_bucket 2 0 (by norm_num)).2.1,
   (rate_limiter_token_bucket 2 0 (by norm_num)).2.2.1⟩

/-! ### C6 — fixed transform stage order -/

theorem mem_ite_nil_right {α : Type} {c : Prop} [Decidable c] {l : List α}
    {a : α} : (a ∈ if c then l else []) ↔ c ∧ a ∈ l := by
  split <;> simp_all

theorem mem_ite_nil_left {α : Type} {c : Prop} [Decidable c] {l : List α}
    {a : α} : (a ∈ if c then [] else l) ↔ ¬c ∧ a ∈ l := by
  split <;> simp_all

theorem mem_ite_lists {α : Type} {c : Prop} [Decidable c] {l1 l2 : List α}
    {a : α} : (a ∈ if c then l1 else l2) ↔ (c ∧ a ∈ l1) ∨ (¬c ∧ a ∈ l2) := by
  split <;> simp_all

theorem forall₂_mem_right {α β : Type} {R : α → β → Prop} :
    ∀ {ks : List α} {ss : List β}, List.Forall₂ R ks ss →
    ∀ {s}, s ∈ ss → ∃ k ∈ ks, R k s := by
  intro ks ss h
  induction h with
  | nil => intro s hs; simp at hs
  | cons hR h2 ih =>
      intro s hs
      rcases List.mem_cons.mp hs with rfl | hs2
      · exact ⟨_, List.mem_cons_self _ _, hR⟩
      · obtain ⟨k, hk, hkR⟩ := ih hs2
        exact ⟨k, List.mem_cons_of_mem _ hk, hkR⟩

/-- Concatenating blocks whose stage numbers are constant per block and
nondecreasing across blocks yields a stage-sorted call sequence. -/
theorem join_pairwise_stage :
    ∀ (ks : List Nat) (ss : List (List Processor.ImageOp)),
    List.Forall₂ (fun k seg => ∀ x ∈ seg, Processor.stageIndex x = k) ks ss →
    ks.Pairwise (· ≤ ·) →
    ss.flatten.Pairwise (fun a b => Processor.stageIndex a ≤ Processor.stageIndex b) := by
  intro ks ss hf
  induction hf with
  | nil => intro _; simp
  | @cons k seg ks2 ss2 hseg hf2 ih =>
      intro hp
      rw [List.flatten_cons, List.pairwise_append]
      refine ⟨List.pairwise_of_forall_mem_list ?_, ih (List.Pairwise.of_cons hp), ?_⟩
      · intro a ha b hb
        rw [hseg a ha, hseg b hb]
      · intro a ha b hb
        obtain ⟨s2, hs2, hbs2⟩ := List.mem_flatten.mp hb
        obtain ⟨k2, hk2mem, hk2⟩ := forall₂_mem_right hf2 hs2
        rw [hseg a ha, hk2 b hbs2]
        exact (List.pairwise_cons.mp hp).1 k2 hk2mem

/-- `transformOps` is the concatenation of the thirteen stage blocks. -/
theorem transformOps_eq_join (opts : Processor.TransformOptions) :
    Processor.transformOps opts = (stageSegs opts).flatten := by
  simp only [Processor.transformOps, stageSegs, List.flatten_cons,
    List.flatten_nil, List.append_assoc, List.append_nil]

/-- Every call in a stage block carries that block's stage number. -/
theorem stageSegs_stages (opts : Processor.TransformOptions) :
    List.Forall₂ (fun k seg => ∀ x ∈ seg, Processor.stageIndex x = k)
      stageKeys (stageSegs opts) := by
  unfold stageKeys stageSegs
  refine .cons ?_ (.cons ?_ (.cons ?_ (.cons ?_ (.cons ?_ (.cons ?_ (.cons ?_
    (.cons ?_ (.cons ?_ (.cons ?_ (.cons ?_ (.cons ?_ (.cons ?_ .nil))))))))))))
  · intro x hx
    simp only [List.mem_singleton] at hx
    subst hx
    rfl
  · intro x hx
    rw [mem_ite_nil_right] at hx
    simp only [List.mem_singleton] at hx
    rw [hx.2]
    rfl
  · intro x hx
    rw [mem_ite_nil_left] at hx
    have hx2 := hx.2
    unfold Processor.flipCalls at hx2
    by_cases h1 : (opts.Flip == cs "h") = true
    · rw [if_pos h1] at hx2
      simp only [List.mem_singleton] at hx2
      rw [hx2]
      rfl
    · rw [if_neg h1] at hx2
      by_cases h2 : (opts.Flip == cs "v") = true
      · rw [if_pos h2] at hx2
        simp only [List.mem_singleton] at hx2
        rw [hx2]
        rfl
      · rw [if_neg h2] at hx2
        by_cases h3 : (opts.Flip == cs "both") = true
        · rw [if_pos h3] at hx2
          simp only [List.mem_cons, List.mem_singleton, List.not_mem_nil,
            or_false] at hx2
          rcases hx2 with rfl | rfl <;> rfl
        · rw [if_neg h3] at hx2
          simp at hx2
  · intro x hx
    rw [mem_ite_nil_right] at hx
    simp only [List.mem_singleton] at hx
    rw [hx.2]
    rfl
  · intro x hx
    rw [mem_ite_nil_left] at hx
    have hx2 := hx.2
    unfold Processor.cropCalls at hx2
    rcases hc : Processor.parseCrop opts.Crop with - | c
    · rw [hc] at hx2
      simp at hx2
    · rw [hc] at hx2
      simp only [List.mem_singleton] at hx2
      rw [hx2]
      rfl
  · intro x hx
    rw [mem_ite_nil_right] at hx
    simp only [List.mem_singleton] at hx
    rw [hx.2]
    rfl
  · intro x hx
    rw [mem_ite_nil_right] at hx
    simp only [List.mem_singleton] at hx
    rw [hx.2]
    rfl
  · intro x hx
    rw [mem_ite_nil_right] at hx
    simp only [List.mem_singleton] at hx
    rw [hx.2]
    rfl
  · intro x hx
    rw [mem_ite_nil_right] at hx
    simp only [List.mem_singleton] at hx
    rw [hx.2]
    rfl
  · intro x hx
    rw [mem_ite_nil_right] at hx
    simp only [List.mem_singleton] at hx
    rw [hx.2]
    rfl
  · intro x hx
    rw [mem_ite_nil_right] at hx
    obtain ⟨⟨-, hc1⟩, hx2⟩ := hx
    simp only [List.mem_singleton] at hx2
    rw [hx2]
    simp only [Processor.stageIndex, List.length_singleton]
    rw [if_neg (by norm_num), if_neg]
    simp only [beq_iff_eq, List.cons.injEq, and_true]
    intro hoff
    apply hc1
    have h128 : (128 : ℚ) * (1 - opts.Contrast) = 0 := hoff
    have := mul_eq_zero.mp h128
    rcases this with h | h
    · norm_num at h
    · linarith [sub_eq_zero.mp h]
  · intro x hx
    rw [mem_ite_nil_right] at hx
    have hx2 := hx.2
    simp only [List.mem_cons, List.mem_singleton, List.not_mem_nil,
      or_false] at hx2
    rcases hx2 with rfl | rfl | rfl <;> rfl
  · intro x hx
    simp only [List.mem_singleton] at hx
    subst hx
    rfl

theorem mem_cropCalls {crop : List Char} {x : Processor.ImageOp} :
    x ∈ Processor.cropCalls crop ↔
      ∃ c, Processor.parseCrop crop = some c ∧
        x = .extractArea c.1 c.2.1 c.2.2.1 c.2.2.2 := by
  unfold Processor.cropCalls
  cases hc : Processor.parseCrop crop <;> simp

/-- The call sequence is stage-sorted for every option set. -/
theorem transformOps_sorted (opts : Processor.TransformOptions) :
    (Processor.transformOps opts).Pairwise
      (fun a b => Processor.stageIndex a ≤ Processor.stageIndex b) := by
  rw [transformOps_eq_join]
  exact join_pairwise_stage _ _ (stageSegs_stages opts) (by decide)

set_option maxHeartbeats 1000000 in
/-- A call appears in the sequence exactly when its stage's parameter
requests it. -/
theorem transformOps_mem_iff (opts : Processor.TransformOptions)
    (x : Processor.ImageOp) :
    x ∈ Processor.transformOps opts ↔
      (x = .autoRotate
      ∨ (opts.Rotate > 0 ∧ x = .rotate (Processor.angleOf opts.Rotate))
      ∨ (opts.Flip ≠ [] ∧ x ∈ Processor.flipCalls opts.Flip)
      ∨ ((opts.Width > 0 ∨ opts.Height > 0) ∧
          x = .thumbnail opts.Width opts.Height (Processor.interestOf opts.Fit))
      ∨ (opts.Crop ≠ [] ∧ ∃ c, Processor.parseCrop opts.Crop = some c ∧
          x = .extractArea c.1 c.2.1 c.2.2.1 c.2.2.2)
      ∨ (opts.AutoOptim = true ∧ x = .sharpen 1 1 (12 / 10))
      ∨ (opts.Sharpen > 0 ∧ x = .sharpen 1 1 opts.Sharpen)
      ∨ (opts.Blur > 0 ∧ x = .gaussianBlur (opts.Blur : ℚ))
      ∨ (opts.Grayscale = true ∧ x = .toColorSpace .bw)
      ∨ (opts.Brightness ≠ 0 ∧ x = .linear [1 + opts.Brightness / 100] [0])
      ∨ ((opts.Contrast ≠ 0 ∧ opts.Contrast ≠ 1) ∧
          x = .linear [opts.Contrast] [128 * (1 - opts.Contrast)])
      ∨ ((opts.Saturation ≠ 0 ∧ opts.Saturation ≠ 1) ∧
          (x = .toColorSpace .lab
          ∨ x = .linear [1, opts.Saturation, opts.Saturation] [0, 0, 0]
          ∨ x = .toColorSpace .original))
      ∨ x = Processor.exportCall opts) := by
  simp only [Processor.transformOps, List.mem_append, mem_ite_nil_right,
    mem_ite_nil_left, mem_cropCalls, List.mem_singleton, List.mem_cons,
    List.not_mem_nil, or_false, beq_iff_eq, ne_eq, or_assoc]

/-- The final encode call is always last. -/
theorem transformOps_getLast (opts : Processor.TransformOptions) :
    (Processor.transformOps opts).getLast? =
      some (Processor.exportCall opts) := by
  unfold Processor.transformOps
  rw [List.getLast?_concat]

/-- For `rotate=90&flip=h` (all other parameters at rest) the call
sequence is auto-orient, rotate 90, horizontal flip, encode — rotation
strictly before the flip. -/
theorem transformOps_rotate_flip :
    Processor.transformOps
      ⟨0, 0, cs "cover", cs "jpeg", 80, [], 0, 0, 0, 1, 1, false, false,
        cs "h", 90, [], true⟩ =
      [.autoRotate, .rotate .a90, .flip .horizontal,
       .exportImage (cs "jpeg") 80 true] := by
  decide

/-- C6: the orchestrator's engine calls are issued in the fixed §4.7 stage
order (stage numbers never decrease along the sequence); a call appears
exactly when its parameter requests it; the final encode is always the
last call; and for `rotate=90&flip=h` the rotation call precedes the flip
call. -/
theorem transform_stage_order :
    (∀ opts, (Processor.transformOps opts).Pairwise
      (fun a b => Processor.stageIndex a ≤ Processor.stageIndex b))
    ∧ (∀ opts x, x ∈ Processor.transformOps opts ↔
        (x = .autoRotate
        ∨ (opts.Rotate > 0 ∧ x = .rotate (Processor.angleOf opts.Rotate))
        ∨ (opts.Flip ≠ [] ∧ x ∈ Processor.flipCalls opts.Flip)
        ∨ ((opts.Width > 0 ∨ opts.Height > 0) ∧
            x = .thumbnail opts.Width opts.Height (Processor.interestOf opts.Fit))
        ∨ (opts.Crop ≠ [] ∧ ∃ c, Processor.parseCrop opts.Crop = some c ∧
            x = .extractArea c.1 c.2.1 c.2.2.1 c.2.2.2)
        ∨ (opts.AutoOptim = true ∧ x = .sharpen 1 1 (12 / 10))
        ∨ (opts.Sharpen > 0 ∧ x = .sharpen 1 1 opts.Sharpen)
        ∨ (opts.Blur > 0 ∧ x = .gaussianBlur (opts.Blur : ℚ))
        ∨ (opts.Grayscale = true ∧ x = .toColorSpace .bw)
        ∨ (opts.Brightness ≠ 0 ∧ x = .linear [1 + opts.Brightness / 100] [0])
        ∨ ((opts.Contrast ≠ 0 ∧ opts.Contrast ≠ 1) ∧
            x = .linear [opts.Contrast] [128 * (1 - opts.Contrast)])
        ∨ ((opts.Saturation ≠ 0 ∧ opts.Saturation ≠ 1) ∧
            (x = .toColorSpace .lab
            ∨ x = .linear [1, opts.Saturation, opts.Saturation] [0, 0, 0]
            ∨ x = .toColorSpace .original))
        ∨ x = Processor.exportCall opts))
    ∧ (∀ opts, (Processor.transformOps opts).getLast? =
        some (Processor.exportCall opts))
    ∧ Processor.transformOps
        ⟨0, 0, cs "cover", cs "jpeg", 80, [], 0, 0, 0, 1, 1, false, false,
          cs "h", 90, [], true⟩ =
      [.autoRotate, .rotate .a90, .flip .horizontal,
       .exportImage (cs "jpeg") 80 true] :=
  ⟨transformOps_sorted, fun opts x => transformOps_mem_iff opts x,
   transformOps_getLast, transformOps_rotate_flip⟩

/-- C1 instance: the amended characterization applied at a concrete
allow-list and host. -/
theorem auth_allowlist_suffix_semantics_witness :
    Middleware.authAllowed [cs "x.org"] (cs "x.org") = true :=
  (auth_allowlist_suffix_semantics.1 [cs "x.org"] (cs "x.org")).mpr
    ⟨cs "x.org", List.mem_singleton.mpr rfl, Or.inr ⟨by decide, Or.inl rfl⟩⟩

/-- C5 instance: a store-failing read still reaches the downloader with
the request's URL. -/
theorem cache_failures_invisible_witness :
    (Handler.Transform id 3 (fun _ => []) .storeFailure .netErr
      (fun _ _ => .ok []) .ok).fetched =
      some (Handler.parseParams (fun _ => [])).url :=
  (cache_failures_invisible id 3 (fun _ => []) .netErr (fun _ _ => .ok [])
    .missNil .ok .ok .ok).2.1

/-- C6 instance: the rotate-then-flip call order at `rotate=90&flip=h`. -/
theorem transform_stage_order_witness :
    Processor.transformOps
      ⟨0, 0, cs "cover", cs "jpeg", 80, [], 0, 0, 0, 1, 1, false, false,
        cs "h", 90, [], true⟩ =
      [.autoRotate, .rotate .a90, .flip .horizontal,
       .exportImage (cs "jpeg") 80 true] :=
  transform_stage_order.2.2.2
